import Mathlib

/-!
Verification development for the zet GTFS fetcher/gateway repository.

The Python sources under `src/zet` are shallowly embedded: pure functions
become Lean functions, Python floats become real numbers, Python ints become
`Int`/`Nat`, Python dicts become association lists (insertion ordered, as
CPython dicts are), and wall-clock / network / file-system effects are passed
in explicitly as parameters.
-/

namespace Zet

abbrev TripId := String
abbrev ShapeId := String

/-- Association-list lookup, modelling Python `dict.get`: the first binding
of the key wins (CPython dicts have unique keys, so on well-formed states the
distinction is irrelevant). -/
def alookup {α : Type} : List (String × α) → String → Option α
  | [], _ => none
  | (k, v) :: rest, key => if k = key then some v else alookup rest key

/-- Association-list assignment, modelling Python `dict.__setitem__`: an
existing binding is overwritten in place, a new key is appended at the end
(CPython dicts preserve insertion order). -/
def aset {α : Type} : List (String × α) → String → α → List (String × α)
  | [], key, v => [(key, v)]
  | (k, w) :: rest, key, v =>
      if k = key then (k, v) :: rest else (k, w) :: aset rest key v

/-- Python `int(x)` on a float: truncation toward zero. -/
noncomputable def pyInt (x : ℝ) : ℤ := if 0 ≤ x then ⌊x⌋ else ⌈x⌉

/-- Python `round(x)` on a float: round half to even (banker's rounding). -/
noncomputable def pyRound (x : ℝ) : ℤ :=
  if x - ⌊x⌋ < 1 / 2 then ⌊x⌋
  else if 1 / 2 < x - ⌊x⌋ then ⌊x⌋ + 1
  else if Even ⌊x⌋ then ⌊x⌋ else ⌊x⌋ + 1

/-! ## Geo math (`src/zet/math/latlon.py`) -/

def EARTH_RADIUS_METERS : ℝ := 6371000

/-- Degrees to radians, `math.radians`. -/
noncomputable def radians (x : ℝ) : ℝ := x * Real.pi / 180

/-- `math.atan2 y x` with the standard quadrant conventions. -/
noncomputable def atan2 (y x : ℝ) : ℝ :=
  if 0 < x then Real.arctan (y / x)
  else if x < 0 then
    (if 0 ≤ y then Real.arctan (y / x) + Real.pi
     else Real.arctan (y / x) - Real.pi)
  else
    (if 0 < y then Real.pi / 2 else if y < 0 then -(Real.pi / 2) else 0)

/-- `haversine_distance_meters` from `latlon.py`. -/
noncomputable def haversine_distance_meters (lat1 lon1 lat2 lon2 : ℝ) : ℝ :=
  let phi1 := radians lat1
  let phi2 := radians lat2
  let delta_lambda := radians (lon2 - lon1)
  let delta_phi := phi2 - phi1
  let a := Real.sin (0.5 * delta_phi) ^ 2 +
    Real.cos phi1 * Real.cos phi2 * Real.sin (0.5 * delta_lambda) ^ 2
  let c := 2 * atan2 (Real.sqrt a) (Real.sqrt (1 - a))
  EARTH_RADIUS_METERS * c

/-- `arrow_angle` from `latlon.py`: planar bearing, north = 0, east = pi/2. -/
noncomputable def arrow_angle (lat1 lon1 lat2 lon2 : ℝ) : ℝ :=
  let dx := (lon2 - lon1) * Real.cos (radians lat1)
  let dy := lat2 - lat1
  atan2 dx dy

/-! ## Webserver data model (`src/zet/webserver/webserver.py`) -/

def MAX_TRAJECTORY_LENGTH : ℕ := 30
def TRAJECTORY_OUTPUT_LENGTH : ℕ := 6
def DIRECTION_THRESHOLD_METERS : ℝ := 20

structure StaticReferenceSystem where
  coord_num_digits : ℕ
  ref_lat : ℝ
  ref_lon : ℝ

/-- `StaticReferenceSystem._compress_coord`: each value becomes
`int((v - ref_value) * 10 ** digits + 0.5)` with the rolling reference
updated to the (uncompressed) value just processed. -/
noncomputable def StaticReferenceSystem.compress_coord
    (srs : StaticReferenceSystem) (ref_value : ℝ) : List ℝ → List ℤ
  | [] => []
  | v :: rest =>
      pyInt ((v - ref_value) * (10 : ℝ) ^ srs.coord_num_digits + 0.5) ::
        srs.compress_coord v rest

noncomputable def StaticReferenceSystem.compress_lats
    (srs : StaticReferenceSystem) (lat : List ℝ) : List ℤ :=
  srs.compress_coord srs.ref_lat lat

noncomputable def StaticReferenceSystem.compress_lons
    (srs : StaticReferenceSystem) (lon : List ℝ) : List ℤ :=
  srs.compress_coord srs.ref_lon lon

structure ReferenceSystem where
  static : StaticReferenceSystem
  ref_timestamp : ℤ

def ReferenceSystem.compress_timestamps
    (ref : ReferenceSystem) (timestamps : List ℤ) : List ℤ :=
  timestamps.map (fun t => ref.ref_timestamp - t)

def STATIC_REFERENCE_SYSTEM : StaticReferenceSystem :=
  { coord_num_digits := 6, ref_lat := 45.815, ref_lon := 15.9819 }

structure ParsedVehicle where
  route_id : ℤ
  trip_id : TripId
  timestamp : ℤ
  lat : ℝ
  lon : ℝ

structure ParsedFeed where
  vehicles : List ParsedVehicle
  timestamp : ℤ

/-- `StaticData`: the gateway's index derived from a static snapshot.  Only
the `trip_to_shape_id` table participates in the properties below; the
`shapes` polyline table is carried opaquely through `formatted_json` on the
snapshot record. -/
structure StaticData where
  trip_to_shape_id : List (TripId × ShapeId)

structure StaticDataSnapshot where
  key : String
  static_data : StaticData
  formatted_json : String

structure Vehicle where
  route_id : ℤ
  shape_id : Option ShapeId
  timestamp : ℤ
  lat : List ℝ
  lon : List ℝ
  direction_radians : Option ℝ := none
  no_update_counter : ℕ := 0

/-- `Vehicle.compute_direction`: scan past positions from most recent
(`i = len - 2`) to oldest (`i = 0`); return the planar bearing from the
first scanned point lying strictly more than 20 m (haversine) away from the
newest position `(lat[-1], lon[-1])`, toward the newest position. -/
noncomputable def compute_direction (lat lon : List ℝ) : Option ℝ :=
  if lat.length < 2 then none
  else
    let lastLat := lat.getD (lat.length - 1) 0
    let lastLon := lon.getD (lon.length - 1) 0
    match (List.range (lat.length - 1)).reverse.find? (fun i =>
        decide (DIRECTION_THRESHOLD_METERS <
          haversine_distance_meters lastLat lastLon (lat.getD i 0) (lon.getD i 0))) with
    | some i => some (arrow_angle (lat.getD i 0) (lon.getD i 0) lastLat lastLon)
    | none => none

/-- `Vehicle.from_parsed_vehicle`; `update` must be called to add the first
position. -/
def Vehicle.from_parsed_vehicle (pv : ParsedVehicle) (sd : Option StaticData) :
    Vehicle :=
  { route_id := pv.route_id
    shape_id := sd.bind (fun d => alookup d.trip_to_shape_id pv.trip_id)
    timestamp := pv.timestamp
    lat := []
    lon := [] }

/-- `Vehicle.update`: append the new position at the end, pop the head once
when the trajectory exceeds `MAX_TRAJECTORY_LENGTH`, refresh timestamp,
reset the staleness counter, recompute the direction, and re-attach the
shape id from the latest static data whenever its mapping has the trip. -/
noncomputable def Vehicle.update (v : Vehicle) (pv : ParsedVehicle)
    (sd : Option StaticData) : Vehicle :=
  let lat2 := v.lat ++ [pv.lat]
  let lon2 := v.lon ++ [pv.lon]
  let lat3 := if MAX_TRAJECTORY_LENGTH < lat2.length then lat2.drop 1 else lat2
  let lon3 := if MAX_TRAJECTORY_LENGTH < lat2.length then lon2.drop 1 else lon2
  { route_id := v.route_id
    shape_id :=
      match sd with
      | some d =>
          match alookup d.trip_to_shape_id pv.trip_id with
          | some sid => some sid
          | none => v.shape_id
      | none => v.shape_id
    timestamp := pv.timestamp
    lat := lat3
    lon := lon3
    direction_radians := compute_direction lat3 lon3
    no_update_counter := 0 }

structure RealtimeState where
  vehicles : List (TripId × Vehicle)
  timestamp : ℤ
  latest_static_key : Option String

/-- One iteration of the merge loop in `RealtimeState.update`: look the trip
up, create the vehicle if absent, then apply `Vehicle.update`. -/
noncomputable def mergeVehicle (sd : Option StaticData)
    (m : List (TripId × Vehicle)) (pv : ParsedVehicle) :
    List (TripId × Vehicle) :=
  match alookup m pv.trip_id with
  | none => aset m pv.trip_id ((Vehicle.from_parsed_vehicle pv sd).update pv sd)
  | some v => aset m pv.trip_id (v.update pv sd)

/-- The loop `vehicle.no_update_counter += 1` applied to one vehicle. -/
def bumpVehicle (v : Vehicle) : Vehicle :=
  { v with no_update_counter := v.no_update_counter + 1 }

/-- `RealtimeState.update`: bump every staleness counter, merge the feed's
vehicles, evict vehicles missing from the last 30 feeds, record the feed
timestamp and the latest static key. -/
noncomputable def RealtimeState.update (s : RealtimeState) (feed : ParsedFeed)
    (lsd : Option StaticDataSnapshot) : RealtimeState :=
  { vehicles := (feed.vehicles.foldl
      (mergeVehicle (lsd.map (fun x => x.static_data)))
      (s.vehicles.map (fun kv => (kv.1, bumpVehicle kv.2)))).filter
      (fun kv => kv.2.no_update_counter < 30)
    timestamp := feed.timestamp
    latest_static_key := lsd.map (fun x => x.key) }

/-- Iterated feed ingest. -/
noncomputable def RealtimeState.updateMany (s : RealtimeState)
    (fs : List (ParsedFeed × Option StaticDataSnapshot)) : RealtimeState :=
  fs.foldl (fun st f => st.update f.1 f.2) s

/-- Modelled from the spec: reconstruction of a §6 compressed coordinate
list by cumulative sums of the integer deltas divided by the scale factor.
This is the claim-side decoder; the repository itself only encodes. -/
noncomputable def decodeCoords (factor : ℝ) (ref : ℝ) : List ℤ → List ℝ
  | [] => []
  | c :: cs =>
      let r := ref + (c : ℝ) / factor
      r :: decodeCoords factor r cs

/-- Python `l[-n:]`: the last `n` elements (the whole list when shorter). -/
def takeLast {α : Type} (l : List α) (n : ℕ) : List α :=
  l.drop (l.length - n)

/-- One element of `RealtimeState.to_json_v0`'s output array
(`Vehicle.to_json_v0`). -/
structure VehicleJsonV0 where
  routeId : ℤ
  timestamp : ℤ
  lat : List ℝ
  lon : List ℝ
  directionDegrees : Option ℤ
deriving Inhabited

/-- `Vehicle.to_json_v0`: raw fields, the last six positions (oldest to
newest), and the direction in rounded degrees. -/
noncomputable def Vehicle.to_json_v0 (v : Vehicle) : VehicleJsonV0 :=
  { routeId := v.route_id
    timestamp := v.timestamp
    lat := takeLast v.lat TRAJECTORY_OUTPUT_LENGTH
    lon := takeLast v.lon TRAJECTORY_OUTPUT_LENGTH
    directionDegrees := v.direction_radians.map (fun d => pyRound (d * 180 / Real.pi)) }

/-- The structure-of-arrays object built by `Vehicle.to_compressed_json`. -/
structure CompressedVehiclesJson where
  routeIds : List ℤ
  shapeIds : List (Option ShapeId)
  timestamps : List ℤ
  compressedLats : List (List ℤ)
  compressedLons : List (List ℤ)
  directionDegrees : List (Option ℤ)

/-- `Vehicle.to_compressed_json`: per-vehicle compressed coordinates over the
last six positions, timestamp deltas, rounded degrees. -/
noncomputable def Vehicle.to_compressed_json (vehicles : List Vehicle)
    (ref : ReferenceSystem) : CompressedVehiclesJson :=
  { routeIds := vehicles.map (fun v => v.route_id)
    shapeIds := vehicles.map (fun v => v.shape_id)
    timestamps := ref.compress_timestamps (vehicles.map (fun v => v.timestamp))
    compressedLats := vehicles.map (fun v =>
      ref.static.compress_lats (takeLast v.lat TRAJECTORY_OUTPUT_LENGTH))
    compressedLons := vehicles.map (fun v =>
      ref.static.compress_lons (takeLast v.lon TRAJECTORY_OUTPUT_LENGTH))
    directionDegrees := vehicles.map (fun v =>
      v.direction_radians.map (fun d => pyRound (d * 180 / Real.pi))) }

/-- `RealtimeState.to_json_v0`: the fresh vehicles (counter zero) only. -/
noncomputable def RealtimeState.to_json_v0 (s : RealtimeState) :
    List VehicleJsonV0 :=
  ((s.vehicles.map Prod.snd).filter (fun v => v.no_update_counter == 0)).map
    Vehicle.to_json_v0

structure RealtimeJsonV1 where
  vehicles : CompressedVehiclesJson
  timestamp : ℤ
  latestStaticKey : Option String

/-- `RealtimeState.to_json_v1`: compressed structure-of-arrays over the fresh
vehicles, against the fixed static reference and the state's timestamp. -/
noncomputable def RealtimeState.to_json_v1 (s : RealtimeState) :
    RealtimeJsonV1 :=
  let ref : ReferenceSystem :=
    { static := STATIC_REFERENCE_SYSTEM, ref_timestamp := s.timestamp }
  { vehicles := Vehicle.to_compressed_json
      ((s.vehicles.map Prod.snd).filter (fun v => v.no_update_counter == 0)) ref
    timestamp := s.timestamp
    latestStaticKey := s.latest_static_key }

/-! ## Fetcher (`src/zet/fetcher/fetcher.py`)

Raw payloads are byte strings, modelled as `List ℕ`.  Gzip compression and
the protobuf timestamp parse are external collaborators (the `gzip` and
`google.transit` libraries); they enter the model as function parameters
`gzipC` (with the theorems assuming only that gzip output is never the empty
byte string) and `parseTs` (returning `INVALID_TIMESTAMP = 0` on a parse
failure, exactly as `process_gtfs_realtime` does). -/

abbrev Bytes := List ℕ

def INVALID_TIMESTAMP : ℤ := 0

structure RealtimeSnapshotData where
  raw_data : Bytes
  gzipped_data : Bytes
  snapshot_at : ℤ
deriving DecidableEq

/-- `RealtimeSnapshotData.is_valid`. -/
def RealtimeSnapshotData.is_valid (d : RealtimeSnapshotData) : Prop :=
  INVALID_TIMESTAMP < d.snapshot_at

/-- `process_gtfs_realtime`: gzip the payload and read the header timestamp,
keeping the bytes even when the protobuf parse fails (`parseTs` yields 0). -/
def process_gtfs_realtime (gzipC : Bytes → Bytes) (parseTs : Bytes → ℤ)
    (raw : Bytes) : RealtimeSnapshotData :=
  { raw_data := raw, gzipped_data := gzipC raw, snapshot_at := parseTs raw }

/-- A row of the realtime `snapshots` archive table (the wall-clock
`fetched_at` column is dropped from the model). -/
structure ArchiveRow where
  snapshot_at : ℤ
  gzipped_data : Bytes
deriving DecidableEq

/-- The fetcher state touched by `store_realtime_snapshot`: the deduplication
reference, the archive rows appended so far, the frames published to the
`realtime-snapshot` topic, and the rotation counter. -/
structure FetcherState where
  current_realtime_snapshot : Option RealtimeSnapshotData
  realtime_rows : List ArchiveRow
  realtime_published : List Bytes
  new_snapshots_count : ℕ
deriving DecidableEq

/-- `Fetcher.store_realtime_snapshot`: a payload byte-identical to the
previous one is archived with empty `gzipped_data` and not published;
otherwise the snapshot is processed, becomes the new dedup reference, is
published when valid, and is archived with its gzipped bytes.  Returns the
`not same_snapshot` flag.  Database rotation is a file-system effect and is
represented only by the `new_snapshots_count` counter. -/
def Fetcher.store_realtime_snapshot (gzipC : Bytes → Bytes)
    (parseTs : Bytes → ℤ) (st : FetcherState) (raw : Bytes) :
    FetcherState × Bool :=
  let same : Bool :=
    match st.current_realtime_snapshot with
    | some cur => decide (cur.raw_data = raw)
    | none => false
  if same then
    let data := st.current_realtime_snapshot.getD
      (process_gtfs_realtime gzipC parseTs raw)
    ({ st with
        realtime_rows := st.realtime_rows ++
          [{ snapshot_at := data.snapshot_at, gzipped_data := [] }] }, false)
  else
    let data := process_gtfs_realtime gzipC parseTs raw
    ({ current_realtime_snapshot := some data
       realtime_rows := st.realtime_rows ++
         [{ snapshot_at := data.snapshot_at, gzipped_data := data.gzipped_data }]
       realtime_published :=
         if INVALID_TIMESTAMP < data.snapshot_at then
           st.realtime_published ++ [data.gzipped_data]
         else st.realtime_published
       new_snapshots_count := st.new_snapshots_count + 1 }, true)

/-- `n` consecutive calls of `store_realtime_snapshot` on the same payload. -/
def Fetcher.storeRealtimeN (gzipC : Bytes → Bytes) (parseTs : Bytes → ℤ)
    (st : FetcherState) (raw : Bytes) : ℕ → FetcherState
  | 0 => st
  | n + 1 =>
      Fetcher.storeRealtimeN gzipC parseTs
        (Fetcher.store_realtime_snapshot gzipC parseTs st raw).1 raw n

/-! ### Static snapshot processor (`process_gtfs_static`) -/

/-- `datetime.date`, ordered lexicographically by (year, month, day). -/
structure PyDate where
  year : ℕ
  month : ℕ
  day : ℕ
deriving DecidableEq

def PyDate.key (d : PyDate) : ℕ := d.year * 10000 + d.month * 100 + d.day

def PyDate.le (a b : PyDate) : Prop := a.key ≤ b.key

instance : DecidableRel PyDate.le := fun a b => by
  unfold PyDate.le; infer_instance

/-- Python `min` on two dates. -/
def PyDate.min (a b : PyDate) : PyDate := if PyDate.le a b then a else b

def INVALID_DATE : PyDate := { year := 1970, month := 1, day := 1 }

structure StaticSnapshotData where
  raw_data : Bytes
  gzipped_data : Bytes
  calendar_date : PyDate
deriving DecidableEq

/-- `StaticSnapshotData.is_valid`. -/
def StaticSnapshotData.is_valid (d : StaticSnapshotData) : Prop :=
  INVALID_DATE.key < d.calendar_date.key

def isLeapYear (y : ℕ) : Prop := y % 4 = 0 ∧ (y % 100 ≠ 0 ∨ y % 400 = 0)

instance : DecidablePred isLeapYear := fun y => by
  unfold isLeapYear; infer_instance

def daysInMonth (y m : ℕ) : ℕ :=
  if m = 2 then (if isLeapYear y then 29 else 28)
  else if m = 4 ∨ m = 6 ∨ m = 9 ∨ m = 11 then 30
  else 31

/-- `datetime.date(y, m, d)`: `none` models the `ValueError` on an
out-of-range component. -/
def mkPyDate (y m d : ℕ) : Option PyDate :=
  if 1 ≤ y ∧ y ≤ 9999 ∧ 1 ≤ m ∧ m ≤ 12 ∧ 1 ≤ d ∧ d ≤ daysInMonth y m then
    some { year := y, month := m, day := d }
  else none

/-- Python `int(s)` restricted to plain decimal digit strings (the form
`start_date` takes in GTFS); anything else models a `ValueError`. -/
def parseDigits (cs : List Char) : Option ℕ :=
  if cs ≠ [] ∧ cs.all Char.isDigit then
    some (cs.foldl (fun n c => 10 * n + (c.toNat - 48)) 0)
  else none

/-- Parsing one `start_date` cell as `YYYYMMDD` the way the fetcher slices
it: `int(s[:4])`, `int(s[4:6])`, `int(s[6:8])`, then `datetime.date`. -/
def parseStartDate (s : String) : Option PyDate := do
  let y ← parseDigits (s.data.take 4)
  let m ← parseDigits ((s.data.drop 4).take 2)
  let d ← parseDigits ((s.data.drop 6).take 2)
  mkPyDate y m d

/-- Parsing every row; `none` as soon as one row fails (used only to state
the happy-path minimum property). -/
def parseAll : List String → Option (List PyDate)
  | [] => some []
  | s :: rest => do
      let d ← parseStartDate s
      let ds ← parseAll rest
      pure (d :: ds)

/-- The accumulation loop of `process_gtfs_static` over the `start_date`
column: a cell that fails to parse raises, aborting the loop and keeping the
value accumulated so far; a parsed date replaces the accumulator when the
accumulator still equals the sentinel, and otherwise the minimum is kept. -/
def calendarFold : List String → PyDate → PyDate
  | [], acc => acc
  | s :: rest, acc =>
      match parseStartDate s with
      | none => acc
      | some date =>
          calendarFold rest (if acc = INVALID_DATE then date else acc.min date)

/-- `process_gtfs_static`: `rows` is the `start_date` column of
`calendar.txt`, or `none` when the zip cannot be opened or lacks the file
(the `zipfile`/`csv` collaborators); the raw and gzipped bytes are returned
in every case. -/
def process_gtfs_static (gzipC : Bytes → Bytes) (rows : Option (List String))
    (raw : Bytes) : StaticSnapshotData :=
  let calendar_date :=
    match rows with
    | none => INVALID_DATE
    | some rs => calendarFold rs INVALID_DATE
  { raw_data := raw, gzipped_data := gzipC raw, calendar_date := calendar_date }

/-! ## Framed push server (`src/zet/utils/websocket_server.py`)

The server's observable behaviour is serialized by its two locks: the topic
histories are read and written under `data_lock` (the whole replay loop of
`_handle_client` holds it), and the subscriber set under `clients_lock`.
The model therefore runs the operations atomically, one event at a time,
and records every `(client, frame)` send. -/

abbrev Frame := String

structure WSState where
  data : List (String × List Frame)
  clients : List ℕ

/-- `WebSocketServer.__init__`: one empty history per topic, in the order
given by `kinds_order`; no subscribers. -/
def initWSState (kinds_order : List String) : WSState :=
  { data := kinds_order.map (fun k => (k, [])), clients := [] }

/-- The append-and-trim of one topic history inside `update_data`. -/
def pushFrame (frame : Frame) (max_history : ℕ) (l : List Frame) :
    List Frame :=
  let l2 := l ++ [frame]
  if max_history < l2.length then l2.drop 1 else l2

/-- `WebSocketServer.update_data` followed by `_notify_clients`: append the
frame to the topic's history (popping the oldest entry when `max_history` is
exceeded), then send the last element of that history to every currently
connected subscriber.  A key outside `kinds_order` raises `ValueError`,
modelled as a no-op producing no sends. -/
def WSState.update_data (st : WSState) (key : String) (frame : Frame)
    (max_history : ℕ) : WSState × List (ℕ × Frame) :=
  if (alookup st.data key).isSome then
    let data2 := st.data.map (fun kv =>
      if kv.1 = key then (kv.1, pushFrame frame max_history kv.2) else kv)
    let sent :=
      match alookup data2 key with
      | some hist =>
          match hist.getLast? with
          | some last => st.clients.map (fun c => (c, last))
          | none => []
      | none => []
    ({ st with data := data2 }, sent)
  else (st, [])

/-- `WebSocketServer._handle_client` up to the point the subscriber joins
the broadcast set: under the data lock, replay every stored frame in topic
order then insertion order, and only then add the subscriber. -/
def WSState.handle_client_connect (st : WSState) (cid : ℕ) :
    WSState × List (ℕ × Frame) :=
  ({ st with clients := st.clients ++ [cid] },
    ((st.data.map Prod.snd).flatten).map (fun f => (cid, f)))

inductive WsEvent where
  | publish (key : String) (frame : Frame) (max_history : ℕ)
  | connect (cid : ℕ)
deriving DecidableEq

def wsStep (st : WSState) : WsEvent → WSState × List (ℕ × Frame)
  | .publish k f m => st.update_data k f m
  | .connect c => st.handle_client_connect c

/-- Run a sequence of server events, collecting every send in order. -/
def wsRun : WSState → List WsEvent → WSState × List (ℕ × Frame)
  | st, [] => (st, [])
  | st, e :: es =>
      ((wsRun (wsStep st e).1 es).1,
        (wsStep st e).2 ++ (wsRun (wsStep st e).1 es).2)

/-- The frames a given subscriber received, in order. -/
def deliveredTo (c : ℕ) (out : List (ℕ × Frame)) : List Frame :=
  out.filterMap (fun p => if p.1 = c then some p.2 else none)

/-- The fetcher's topic configuration
(`kinds_order=["static-snapshot", "realtime-snapshot"]`). -/
def FETCHER_KINDS : List String := ["static-snapshot", "realtime-snapshot"]

/-! ## Gateway static snapshot history (`GtfsServer`) -/

def MAX_RECENT_STATIC_SNAPSHOTS : ℕ := 3

/-- The happy path of `GtfsServer._process_static_data`: append the freshly
built snapshot (whose `key` is the current local minute, minted by the
wall clock and passed in here) and pop from the front while more than
`MAX_RECENT_STATIC_SNAPSHOTS` are retained. -/
def process_static_data (snaps : List StaticDataSnapshot)
    (snap : StaticDataSnapshot) : List StaticDataSnapshot :=
  let l := snaps ++ [snap]
  if MAX_RECENT_STATIC_SNAPSHOTS < l.length then
    l.drop (l.length - MAX_RECENT_STATIC_SNAPSHOTS)
  else l

/-- `GtfsServer.handle_static_data_request`: linear scan of the history in
insertion order, returning the first snapshot whose key matches. -/
def handle_static_data_request (snaps : List StaticDataSnapshot)
    (key : String) : String × ℕ :=
  match snaps.find? (fun s => s.key == key) with
  | some s => (s.formatted_json, 200)
  | none => ("Static data not found", 404)

/-! ## Association-list lemmas -/

theorem alookup_map_value {α β : Type} (f : α → β) :
    ∀ (m : List (String × α)) (k : String),
      alookup (m.map (fun kv => (kv.1, f kv.2))) k = (alookup m k).map f
  | [], _ => rfl
  | (k1, v) :: rest, k => by
      by_cases h : k1 = k <;> simp [alookup, h, alookup_map_value f rest k]

theorem alookup_aset_self {α : Type} :
    ∀ (m : List (String × α)) (k : String) (v : α),
      alookup (aset m k v) k = some v
  | [], _, _ => by simp [aset, alookup]
  | (k1, w) :: rest, k, v => by
      by_cases h : k1 = k <;>
        simp [aset, alookup, h, alookup_aset_self rest k v]

theorem alookup_aset_ne {α : Type} (k k' : String) (hne : k ≠ k') :
    ∀ (m : List (String × α)) (v : α),
      alookup (aset m k v) k' = alookup m k'
  | [], v => by simp [aset, alookup, hne]
  | (k1, w) :: rest, v => by
      by_cases h : k1 = k
      · subst h; simp [aset, alookup, hne, Ne.symm hne]
      · by_cases h' : k1 = k' <;>
          simp [aset, alookup, h, h', Ne.symm hne,
            alookup_aset_ne k k' hne rest v]

theorem alookup_eq_none_of_not_mem_keys {α : Type} :
    ∀ {m : List (String × α)} {k : String},
      k ∉ m.map Prod.fst → alookup m k = none
  | [], _, _ => rfl
  | (k1, v) :: rest, k, h => by
      simp only [List.map_cons, List.mem_cons, not_or] at h
      simp [alookup, Ne.symm h.1, alookup_eq_none_of_not_mem_keys h.2]

theorem alookup_some_mem {α : Type} :
    ∀ {m : List (String × α)} {k : String} {v : α},
      alookup m k = some v → (k, v) ∈ m
  | (k1, w) :: rest, k, v, h => by
      by_cases hk : k1 = k
      · subst hk
        simp [alookup] at h
        simp [h]
      · simp [alookup, hk] at h
        exact List.mem_cons_of_mem _ (alookup_some_mem h)

theorem mem_aset {α : Type} :
    ∀ {m : List (String × α)} {k : String} {v : α} {kv : String × α},
      kv ∈ aset m k v → kv ∈ m ∨ kv = (k, v)
  | [], k, v, kv, h => by simp [aset] at h; simp [h]
  | (k1, w) :: rest, k, v, kv, h => by
      by_cases hk : k1 = k
      · subst hk
        simp [aset] at h
        rcases h with h | h
        · exact Or.inr h
        · exact Or.inl (List.mem_cons_of_mem _ h)
      · simp [aset, hk] at h
        rcases h with h | h
        · exact Or.inl (by simp [h])
        · rcases mem_aset h with h' | h'
          · exact Or.inl (List.mem_cons_of_mem _ h')
          · exact Or.inr h'

theorem mem_keys_aset {α : Type} :
    ∀ {m : List (String × α)} {k : String} {v : α} {k' : String},
      k' ∈ (aset m k v).map Prod.fst → k' ∈ m.map Prod.fst ∨ k' = k
  | [], k, v, k', h => by simp [aset] at h; simp [h]
  | (k1, w) :: rest, k, v, k', h => by
      by_cases hk : k1 = k
      · subst hk
        simp [aset] at h
        rcases h with h | h
        · simp [h]
        · exact Or.inl (by simp; exact Or.inr h)
      · simp [aset, hk] at h
        rcases h with h | h
        · simp [h]
        · rcases mem_keys_aset (by simpa using h) with h' | h'
          · exact Or.inl (by simp at h' ⊢; exact Or.inr h')
          · exact Or.inr h'

theorem nodupKeys_aset {α : Type} :
    ∀ {m : List (String × α)} (k : String) (v : α),
      (m.map Prod.fst).Nodup → ((aset m k v).map Prod.fst).Nodup
  | [], k, v, _ => by simp [aset]
  | (k1, w) :: rest, k, v, h => by
      simp only [List.map_cons, List.nodup_cons] at h
      by_cases hk : k1 = k
      · subst hk
        simpa [aset] using h
      · simp only [aset, hk, if_false, List.map_cons, List.nodup_cons]
        refine ⟨fun hmem => ?_, nodupKeys_aset k v h.2⟩
        rcases mem_keys_aset hmem with h' | h'
        · exact h.1 h'
        · exact hk h'

theorem alookup_filter_none {α : Type} (p : α → Bool) :
    ∀ {m : List (String × α)} {k : String},
      alookup m k = none →
      alookup (m.filter (fun kv => p kv.2)) k = none
  | [], _, _ => rfl
  | (k1, v) :: rest, k, h => by
      by_cases hk : k1 = k
      · subst hk; simp [alookup] at h
      · simp only [alookup, hk, if_false] at h
        by_cases hp : p v <;>
          simp [List.filter, hp, alookup, hk, alookup_filter_none p h]

theorem alookup_filter_nodup {α : Type} (p : α → Bool) :
    ∀ {m : List (String × α)} {k : String} {v : α},
      (m.map Prod.fst).Nodup → alookup m k = some v →
      alookup (m.filter (fun kv => p kv.2)) k =
        if p v then some v else none
  | (k1, w) :: rest, k, v, hnd, h => by
      simp only [List.map_cons, List.nodup_cons] at hnd
      by_cases hk : k1 = k
      · subst hk
        have hwv : w = v := by simpa [alookup] using h
        subst hwv
        by_cases hp : p w
        · simp [List.filter_cons, hp, alookup]
        · have hrest : alookup rest k1 = none :=
            alookup_eq_none_of_not_mem_keys hnd.1
          simp [List.filter_cons, hp, alookup_filter_none p hrest]
      · simp only [alookup, hk, if_false] at h
        by_cases hp : p w <;>
          simp [List.filter_cons, hp, alookup, hk,
            alookup_filter_nodup p hnd.2 h]

/-! ## World-model lemmas -/

theorem vehicle_update_lengths (v : Vehicle) (pv : ParsedVehicle)
    (sd : Option StaticData) (h1 : v.lat.length = v.lon.length)
    (h2 : v.lat.length ≤ MAX_TRAJECTORY_LENGTH) :
    (v.update pv sd).lat.length = (v.update pv sd).lon.length ∧
      (v.update pv sd).lat.length ≤ MAX_TRAJECTORY_LENGTH := by
  unfold Vehicle.update
  by_cases hlen : MAX_TRAJECTORY_LENGTH < (v.lat ++ [pv.lat]).length
  · simp only [hlen, if_true]
    simp only [List.length_drop, List.length_append, List.length_singleton]
    constructor
    · omega
    · simp at hlen; omega
  · simp only [hlen, if_false]
    simp only [List.length_append, List.length_singleton]
    simp at hlen
    omega

theorem vehicle_update_getLast (v : Vehicle) (pv : ParsedVehicle)
    (sd : Option StaticData) (h1 : v.lat.length = v.lon.length) :
    (v.update pv sd).lat.getLast? = some pv.lat ∧
      (v.update pv sd).lon.getLast? = some pv.lon := by
  unfold Vehicle.update
  by_cases hlen : MAX_TRAJECTORY_LENGTH < (v.lat ++ [pv.lat]).length
  · simp only [hlen, if_true]
    have hlat : 1 ≤ v.lat.length := by
      simp [MAX_TRAJECTORY_LENGTH] at hlen; omega
    have hlon : 1 ≤ v.lon.length := by omega
    rw [List.drop_append_of_le_length hlat,
      List.drop_append_of_le_length hlon]
    exact ⟨List.getLast?_concat _, List.getLast?_concat _⟩
  · simp only [hlen, if_false]
    exact ⟨List.getLast?_concat _, List.getLast?_concat _⟩

/-- The trajectory-length invariant of a single vehicle. -/
def VehicleLenInv (v : Vehicle) : Prop :=
  v.lat.length = v.lon.length ∧ v.lat.length ≤ MAX_TRAJECTORY_LENGTH

theorem mergeFeed_len_inv (sd : Option StaticData) :
    ∀ (pvs : List ParsedVehicle) (m : List (TripId × Vehicle)),
      (∀ kv ∈ m, VehicleLenInv kv.2) →
      ∀ kv ∈ pvs.foldl (mergeVehicle sd) m, VehicleLenInv kv.2
  | [], m, h => h
  | pv :: rest, m, h => by
      intro kv hkv
      refine mergeFeed_len_inv sd rest (mergeVehicle sd m pv) ?_ kv hkv
      intro kv' hkv'
      unfold mergeVehicle at hkv'
      rcases hlook : alookup m pv.trip_id with _ | v
      · rw [hlook] at hkv'
        rcases mem_aset hkv' with h' | h'
        · exact h kv' h'
        · subst h'
          have hbase : VehicleLenInv (Vehicle.from_parsed_vehicle pv sd) := by
            constructor <;> simp [Vehicle.from_parsed_vehicle, MAX_TRAJECTORY_LENGTH]
          exact vehicle_update_lengths _ pv sd hbase.1 hbase.2
      · rw [hlook] at hkv'
        rcases mem_aset hkv' with h' | h'
        · exact h kv' h'
        · subst h'
          have hv : VehicleLenInv v := h _ (alookup_some_mem hlook)
          exact vehicle_update_lengths v pv sd hv.1 hv.2

/-! ## C1: trajectory shape after a feed ingest -/

/-- Claim C1, head clause, refuted: starting from a fresh vehicle and
applying two updates, the head of `lat` is the *first* (oldest) position,
not the most recent one — `Vehicle.update` appends at the end. -/
theorem C1_counterexample :
    (((Vehicle.from_parsed_vehicle ⟨7, "t", 1, 1, 10⟩ none).update
          ⟨7, "t", 1, 1, 10⟩ none).update ⟨7, "t", 2, 2, 20⟩ none).lat.head? =
        some 1 ∧
      (((Vehicle.from_parsed_vehicle ⟨7, "t", 1, 1, 10⟩ none).update
          ⟨7, "t", 1, 1, 10⟩ none).update ⟨7, "t", 2, 2, 20⟩ none).lat.getLast? =
        some 2 ∧
      (1 : ℝ) ≠ 2 := by
  refine ⟨?_, ?_, by norm_num⟩ <;>
    simp [Vehicle.from_parsed_vehicle, Vehicle.update, MAX_TRAJECTORY_LENGTH]

/-- Claim C1 as amended: after any feed ingest every vehicle keeps
`|lat| = |lon| ≤ MAX_TRAJECTORY_LENGTH = 30`, and the *last* element (not
the head) of `lat`/`lon` is the most recent position. -/
theorem C1_trajectory (s : RealtimeState) (feed : ParsedFeed)
    (lsd : Option StaticDataSnapshot)
    (h : ∀ kv ∈ s.vehicles, VehicleLenInv kv.2) :
    (∀ kv ∈ (s.update feed lsd).vehicles, VehicleLenInv kv.2) ∧
      (∀ (v : Vehicle) (pv : ParsedVehicle) (sd : Option StaticData),
        v.lat.length = v.lon.length →
        (v.update pv sd).lat.getLast? = some pv.lat ∧
          (v.update pv sd).lon.getLast? = some pv.lon) := by
  constructor
  · intro kv hkv
    unfold RealtimeState.update at hkv
    simp only [List.mem_filter] at hkv
    refine mergeFeed_len_inv _ feed.vehicles _ ?_ kv hkv.1
    intro kv' hkv'
    simp only [List.mem_map] at hkv'
    obtain ⟨kv0, hkv0, rfl⟩ := hkv'
    exact h kv0 hkv0
  · intro v pv sd h1
    exact vehicle_update_getLast v pv sd h1

/-- Witness for C1: a concrete empty state, one feed, one fresh vehicle. -/
theorem C1_trajectory_witness :
    ((Vehicle.from_parsed_vehicle ⟨7, "t", 1, 1, 10⟩ none).update
        ⟨7, "t", 1, 1, 10⟩ none).lat.getLast? = some 1 :=
  ((C1_trajectory ⟨[], 0, none⟩ ⟨[⟨7, "t", 1, 1, 10⟩], 5⟩ none
      (by intro kv hkv; simp at hkv)).2
    (Vehicle.from_parsed_vehicle ⟨7, "t", 1, 1, 10⟩ none)
    ⟨7, "t", 1, 1, 10⟩ none (by simp [Vehicle.from_parsed_vehicle])).1

/-! ## C9: shape-id attachment on update -/

/-- Claim C9, frame clause, refuted: a vehicle holding shape id "A" whose
trip maps to "B" in the latest static data has its shape id overwritten to
"B" by `Vehicle.update`. -/
theorem C9_counterexample :
    ((({ route_id := 1, shape_id := some "A", timestamp := 0, lat := [],
          lon := [] } : Vehicle).update ⟨1, "t", 1, 0, 0⟩
        (some ⟨[("t", "B")]⟩)).shape_id = some "B") ∧
      (some "B" : Option ShapeId) ≠ some "A" := by
  constructor
  · simp [Vehicle.update, alookup]
  · simp

/-- Claim C9 as amended: on update the mapped shape id is attached whenever
the latest static mapping contains the trip, replacing any existing value;
the shape id is unchanged exactly when there is no static data or the
mapping lacks the trip.  In particular a null shape id is filled in. -/
theorem C9_shape_id (v : Vehicle) (pv : ParsedVehicle)
    (sd : Option StaticData) :
    (sd = none → (v.update pv sd).shape_id = v.shape_id) ∧
      (∀ d, sd = some d → alookup d.trip_to_shape_id pv.trip_id = none →
        (v.update pv sd).shape_id = v.shape_id) ∧
      (∀ d sid, sd = some d →
        alookup d.trip_to_shape_id pv.trip_id = some sid →
        (v.update pv sd).shape_id = some sid) := by
  refine ⟨?_, ?_, ?_⟩
  · rintro rfl; simp [Vehicle.update]
  · rintro d rfl hl; simp [Vehicle.update, hl]
  · rintro d sid rfl hl; simp [Vehicle.update, hl]

/-! ## C2 lemmas: counter bump, merge, eviction -/

theorem nodupKeys_mergeVehicle (sd : Option StaticData)
    (m : List (TripId × Vehicle)) (pv : ParsedVehicle)
    (h : (m.map Prod.fst).Nodup) :
    ((mergeVehicle sd m pv).map Prod.fst).Nodup := by
  unfold mergeVehicle
  cases alookup m pv.trip_id <;> exact nodupKeys_aset _ _ h

theorem nodupKeys_mergeFeed (sd : Option StaticData) :
    ∀ (pvs : List ParsedVehicle) (m : List (TripId × Vehicle)),
      (m.map Prod.fst).Nodup →
      ((pvs.foldl (mergeVehicle sd) m).map Prod.fst).Nodup
  | [], _, h => h
  | pv :: rest, m, h =>
      nodupKeys_mergeFeed sd rest _ (nodupKeys_mergeVehicle sd m pv h)

theorem alookup_mergeVehicle_ne (sd : Option StaticData)
    (m : List (TripId × Vehicle)) (pv : ParsedVehicle) (k : TripId)
    (hne : pv.trip_id ≠ k) :
    alookup (mergeVehicle sd m pv) k = alookup m k := by
  unfold mergeVehicle
  cases alookup m pv.trip_id <;> exact alookup_aset_ne _ _ hne m _

theorem alookup_mergeFeed_not_mem (sd : Option StaticData) :
    ∀ (pvs : List ParsedVehicle) (m : List (TripId × Vehicle)) (k : TripId),
      k ∉ pvs.map (fun pv => pv.trip_id) →
      alookup (pvs.foldl (mergeVehicle sd) m) k = alookup m k
  | [], _, _, _ => rfl
  | pv :: rest, m, k, h => by
      simp only [List.map_cons, List.mem_cons, not_or] at h
      rw [List.foldl_cons, alookup_mergeFeed_not_mem sd rest _ k h.2,
        alookup_mergeVehicle_ne sd m pv k (Ne.symm h.1)]

theorem update_counter_zero (v : Vehicle) (pv : ParsedVehicle)
    (sd : Option StaticData) : (v.update pv sd).no_update_counter = 0 := by
  simp [Vehicle.update]

theorem mergeVehicle_self (sd : Option StaticData)
    (m : List (TripId × Vehicle)) (pv : ParsedVehicle) :
    ∃ v, alookup (mergeVehicle sd m pv) pv.trip_id = some v ∧
      v.no_update_counter = 0 := by
  unfold mergeVehicle
  cases alookup m pv.trip_id with
  | none => exact ⟨_, alookup_aset_self m _ _, update_counter_zero _ _ _⟩
  | some w => exact ⟨_, alookup_aset_self m _ _, update_counter_zero _ _ _⟩

theorem mergeFeed_counter_zero (sd : Option StaticData) :
    ∀ (pvs : List ParsedVehicle) (m : List (TripId × Vehicle)) (k : TripId),
      (∃ v, alookup m k = some v ∧ v.no_update_counter = 0) →
      ∃ v, alookup (pvs.foldl (mergeVehicle sd) m) k = some v ∧
        v.no_update_counter = 0
  | [], _, _, h => h
  | pv :: rest, m, k, h => by
      refine mergeFeed_counter_zero sd rest _ k ?_
      by_cases hk : pv.trip_id = k
      · subst hk; exact mergeVehicle_self sd m pv
      · obtain ⟨v, hv, hv0⟩ := h
        exact ⟨v, by rw [alookup_mergeVehicle_ne sd m pv k hk]; exact hv, hv0⟩

theorem mergeFeed_mem_counter_zero (sd : Option StaticData) :
    ∀ (pvs : List ParsedVehicle) (m : List (TripId × Vehicle))
      (pv : ParsedVehicle), pv ∈ pvs →
      ∃ v, alookup (pvs.foldl (mergeVehicle sd) m) pv.trip_id = some v ∧
        v.no_update_counter = 0
  | pv0 :: rest, m, pv, h => by
      rcases List.mem_cons.mp h with h | h
      · subst h
        exact mergeFeed_counter_zero sd rest _ _ (mergeVehicle_self sd m pv)
      · exact mergeFeed_mem_counter_zero sd rest _ pv h

theorem bump_keys (s : RealtimeState) :
    ((s.vehicles.map (fun kv => (kv.1, bumpVehicle kv.2))).map
      Prod.fst) = s.vehicles.map Prod.fst := by
  simp [List.map_map, Function.comp]

theorem realtime_update_lookup_absent (s : RealtimeState) (feed : ParsedFeed)
    (lsd : Option StaticDataSnapshot) (k : TripId) (v : Vehicle)
    (hnd : (s.vehicles.map Prod.fst).Nodup)
    (hlk : alookup s.vehicles k = some v)
    (hmem : k ∉ feed.vehicles.map (fun pv => pv.trip_id)) :
    alookup (s.update feed lsd).vehicles k =
      if v.no_update_counter + 1 < 30 then
        some { v with no_update_counter := v.no_update_counter + 1 }
      else none := by
  unfold RealtimeState.update
  have hbump : alookup (s.vehicles.map (fun kv =>
      (kv.1, bumpVehicle kv.2))) k =
      some { v with no_update_counter := v.no_update_counter + 1 } := by
    rw [alookup_map_value bumpVehicle s.vehicles k, hlk]
    rfl
  have hnd2 := (bump_keys s).symm ▸ hnd
  have hmerged : alookup
      (feed.vehicles.foldl (mergeVehicle (lsd.map (fun x => x.static_data)))
        (s.vehicles.map (fun kv => (kv.1, bumpVehicle kv.2)))) k =
      some { v with no_update_counter := v.no_update_counter + 1 } := by
    rw [alookup_mergeFeed_not_mem _ feed.vehicles _ k hmem]
    exact hbump
  have hndm := nodupKeys_mergeFeed (lsd.map (fun x => x.static_data))
    feed.vehicles _ hnd2
  rw [alookup_filter_nodup (fun w => decide (w.no_update_counter < 30))
    hndm hmerged]
  by_cases h : v.no_update_counter + 1 < 30 <;> simp [h]

theorem realtime_update_lookup_none (s : RealtimeState) (feed : ParsedFeed)
    (lsd : Option StaticDataSnapshot) (k : TripId)
    (hlk : alookup s.vehicles k = none)
    (hmem : k ∉ feed.vehicles.map (fun pv => pv.trip_id)) :
    alookup (s.update feed lsd).vehicles k = none := by
  unfold RealtimeState.update
  dsimp only
  have hbump : alookup (s.vehicles.map (fun kv =>
      (kv.1, bumpVehicle kv.2))) k = none := by
    rw [alookup_map_value bumpVehicle s.vehicles k, hlk]
    rfl
  refine alookup_filter_none
    (fun w : Vehicle => decide (w.no_update_counter < 30)) ?_
  rw [alookup_mergeFeed_not_mem _ feed.vehicles _ k hmem]
  exact hbump

theorem realtime_update_nodup (s : RealtimeState) (feed : ParsedFeed)
    (lsd : Option StaticDataSnapshot)
    (hnd : (s.vehicles.map Prod.fst).Nodup) :
    ((s.update feed lsd).vehicles.map Prod.fst).Nodup := by
  unfold RealtimeState.update
  have hnd2 := (bump_keys s).symm ▸ hnd
  have hndm := nodupKeys_mergeFeed (lsd.map (fun x => x.static_data))
    feed.vehicles _ hnd2
  exact ((List.filter_sublist _).map Prod.fst).nodup hndm

theorem updateMany_none :
    ∀ (fs : List (ParsedFeed × Option StaticDataSnapshot))
      (s : RealtimeState) (k : TripId),
      alookup s.vehicles k = none →
      (∀ f ∈ fs, k ∉ f.1.vehicles.map (fun pv => pv.trip_id)) →
      alookup (s.updateMany fs).vehicles k = none
  | [], _, _, h, _ => h
  | f :: rest, s, k, h, hmem =>
      updateMany_none rest (s.update f.1 f.2) k
        (realtime_update_lookup_none s f.1 f.2 k h
          (hmem f (List.mem_cons_self f rest)))
        (fun g hg => hmem g (List.mem_cons_of_mem f hg))

theorem updateMany_evicts :
    ∀ (fs : List (ParsedFeed × Option StaticDataSnapshot))
      (s : RealtimeState) (k : TripId) (v : Vehicle),
      (s.vehicles.map Prod.fst).Nodup →
      alookup s.vehicles k = some v →
      v.no_update_counter < 30 →
      30 ≤ v.no_update_counter + fs.length →
      (∀ f ∈ fs, k ∉ f.1.vehicles.map (fun pv => pv.trip_id)) →
      alookup (s.updateMany fs).vehicles k = none
  | [], s, k, v, _, _, hlt, hge, _ => by simp at hge; omega
  | f :: rest, s, k, v, hnd, hlk, hlt, hge, hmem => by
      have hstep := realtime_update_lookup_absent s f.1 f.2 k v hnd hlk
        (hmem f (List.mem_cons_self f rest))
      by_cases hc : v.no_update_counter + 1 < 30
      · rw [if_pos hc] at hstep
        refine updateMany_evicts rest (s.update f.1 f.2) k _
          (realtime_update_nodup s f.1 f.2 hnd) hstep (by simpa using hc)
          ?_ (fun g hg => hmem g (List.mem_cons_of_mem f hg))
        simp at hge ⊢
        omega
      · rw [if_neg hc] at hstep
        exact updateMany_none rest (s.update f.1 f.2) k hstep
          (fun g hg => hmem g (List.mem_cons_of_mem f hg))

/-! ## C2: staleness counters and eviction -/

/-- Claim C2, confirmed: after a feed ingest every remaining vehicle has
`no_update_counter < 30`; a vehicle absent from the feed reappears with its
counter incremented by one (showing the bump happens before the merge) or is
evicted once the incremented counter reaches 30; a vehicle present in the
feed ends with counter 0; and iterating feeds that miss a vehicle for 30
consecutive ingests evicts it. -/
theorem C2_staleness (s : RealtimeState) (feed : ParsedFeed)
    (lsd : Option StaticDataSnapshot)
    (hnd : (s.vehicles.map Prod.fst).Nodup) :
    (∀ kv ∈ (s.update feed lsd).vehicles, kv.2.no_update_counter < 30) ∧
      (∀ k v, alookup s.vehicles k = some v →
        k ∉ feed.vehicles.map (fun pv => pv.trip_id) →
        alookup (s.update feed lsd).vehicles k =
          if v.no_update_counter + 1 < 30 then
            some { v with no_update_counter := v.no_update_counter + 1 }
          else none) ∧
      (∀ pv ∈ feed.vehicles, ∃ v,
        alookup (s.update feed lsd).vehicles pv.trip_id = some v ∧
          v.no_update_counter = 0) ∧
      (∀ (fs : List (ParsedFeed × Option StaticDataSnapshot)) (k : TripId)
        (v : Vehicle),
        alookup s.vehicles k = some v → v.no_update_counter < 30 →
        30 ≤ v.no_update_counter + fs.length →
        (∀ f ∈ fs, k ∉ f.1.vehicles.map (fun pv => pv.trip_id)) →
        alookup (s.updateMany fs).vehicles k = none) := by
  refine ⟨?_, ?_, ?_, ?_⟩
  · intro kv hkv
    unfold RealtimeState.update at hkv
    simp only [List.mem_filter, decide_eq_true_eq] at hkv
    exact hkv.2
  · intro k v hlk hmem
    exact realtime_update_lookup_absent s feed lsd k v hnd hlk hmem
  · intro pv hpv
    unfold RealtimeState.update
    have hnd2 := (bump_keys s).symm ▸ hnd
    obtain ⟨v, hv, hv0⟩ := mergeFeed_mem_counter_zero
      (lsd.map (fun x => x.static_data)) feed.vehicles _ pv hpv
    refine ⟨v, ?_, hv0⟩
    rw [alookup_filter_nodup (fun w => decide (w.no_update_counter < 30))
      (nodupKeys_mergeFeed _ feed.vehicles _ hnd2) hv]
    simp [hv0]
  · intro fs k v hlk hlt hge hmem
    exact updateMany_evicts fs s k v hnd hlk hlt hge hmem

/-- Witness for C2: a concrete vehicle at counter 29 missing from one more
feed is evicted. -/
theorem C2_staleness_witness :
    alookup ((RealtimeState.update
        ⟨[("a", ⟨1, none, 0, [], [], none, 29⟩)], 0, none⟩
        ⟨[], 1⟩ none).vehicles) "a" = none := by
  have h := (C2_staleness ⟨[("a", ⟨1, none, 0, [], [], none, 29⟩)], 0, none⟩
    ⟨[], 1⟩ none (by simp)).2.1 "a" ⟨1, none, 0, [], [], none, 29⟩
    (by simp [alookup]) (by simp)
  simpa using h

/-- Witness for C9: a null shape id is attached from a concrete mapping. -/
theorem C9_shape_id_witness :
    ((({ route_id := 1, shape_id := none, timestamp := 0, lat := [],
          lon := [] } : Vehicle).update ⟨1, "t", 1, 0, 0⟩
        (some ⟨[("t", "S")]⟩)).shape_id = some "S") :=
  (C9_shape_id _ ⟨1, "t", 1, 0, 0⟩ (some ⟨[("t", "S")]⟩)).2.2
    ⟨[("t", "S")]⟩ "S" rfl (by simp [alookup])

/-! ## C4: coordinate compression round trip -/

/-- Quantization error of one compression step: `int(d + 0.5)` is within
3/2 of `d` (it is within 1/2 for `d + 0.5 ≥ 0`, but the truncation toward
zero loses up to an extra unit for negative deltas). -/
theorem pyInt_add_half_err (d : ℝ) :
    |((pyInt (d + 0.5) : ℤ) : ℝ) - d| < 3 / 2 := by
  unfold pyInt
  by_cases h : (0 : ℝ) ≤ d + 0.5
  · rw [if_pos h]
    have h1 : ((⌊d + 0.5⌋ : ℤ) : ℝ) ≤ d + 0.5 := Int.floor_le _
    have h2 : d + 0.5 - 1 < ((⌊d + 0.5⌋ : ℤ) : ℝ) := by
      have := Int.lt_floor_add_one (d + 0.5)
      linarith
    rw [abs_sub_lt_iff]
    constructor <;> [linarith; nlinarith [h2]]
  · rw [if_neg h]
    have h1 : d + 0.5 ≤ ((⌈d + 0.5⌉ : ℤ) : ℝ) := Int.le_ceil _
    have h2 : ((⌈d + 0.5⌉ : ℤ) : ℝ) < d + 0.5 + 1 := Int.ceil_lt_add_one _
    rw [abs_sub_lt_iff]
    constructor <;> linarith

/-- One decoding step stays within `e + 3/2·10^(-digits)` of the true value
when the running reference is within `e` of the true predecessor. -/
theorem compress_step_err (srs : StaticReferenceSystem) (r v x e : ℝ)
    (he : |r - v| ≤ e) :
    |r + ((pyInt ((x - v) * (10 : ℝ) ^ srs.coord_num_digits + 0.5) : ℤ) : ℝ) /
        (10 : ℝ) ^ srs.coord_num_digits - x| <
      e + 3 / 2 / (10 : ℝ) ^ srs.coord_num_digits := by
  have hF : (0 : ℝ) < (10 : ℝ) ^ srs.coord_num_digits := by positivity
  have hc := pyInt_add_half_err ((x - v) * (10 : ℝ) ^ srs.coord_num_digits)
  set F := (10 : ℝ) ^ srs.coord_num_digits with hFdef
  set c := ((pyInt ((x - v) * F + 0.5) : ℤ) : ℝ) with hcdef
  have key : |c / F - (x - v)| < 3 / 2 / F := by
    have heq : c / F - (x - v) = (c - (x - v) * F) / F := by
      field_simp
      ring
    rw [heq, abs_div, abs_of_pos hF]
    exact (div_lt_div_iff_of_pos_right hF).mpr hc
  have habs : |r + c / F - x| ≤ |r - v| + |c / F - (x - v)| := by
    have h0 : r + c / F - x = (r - v) + (c / F - (x - v)) := by ring
    rw [h0]
    exact abs_add _ _
  linarith

/-- Accumulated reconstruction error of the §6 round trip: the running
reference tracking the true values, each coordinate is reproduced to within
`e + 3/2·(i+1)·10^(-digits)` when the starting reference is within `e`. -/
theorem decode_compress_err (srs : StaticReferenceSystem) :
    ∀ (values : List ℝ) (r v e : ℝ), |r - v| ≤ e →
      ∀ i, i < values.length →
        |(decodeCoords ((10 : ℝ) ^ srs.coord_num_digits) r
            (srs.compress_coord v values)).getD i 0 - values.getD i 0| <
          e + 3 / 2 * (i + 1) / (10 : ℝ) ^ srs.coord_num_digits
  | [], r, v, e, he, i, hi => by simp at hi
  | x :: rest, r, v, e, he, i, hi => by
      have hF : (0 : ℝ) < (10 : ℝ) ^ srs.coord_num_digits := by positivity
      have hstep := compress_step_err srs r v x e he
      cases i with
      | zero =>
          simp only [StaticReferenceSystem.compress_coord, decodeCoords,
            List.getD_cons_zero]
          push_cast
          linarith
      | succ j =>
          simp only [StaticReferenceSystem.compress_coord, decodeCoords,
            List.getD_cons_succ]
          have hrec := decode_compress_err srs rest
            (r + ((pyInt ((x - v) * (10 : ℝ) ^ srs.coord_num_digits + 0.5) : ℤ) : ℝ) /
              (10 : ℝ) ^ srs.coord_num_digits)
            x (e + 3 / 2 / (10 : ℝ) ^ srs.coord_num_digits)
            (le_of_lt hstep) j (by simpa using hi)
          have harith : e + 3 / 2 / (10 : ℝ) ^ srs.coord_num_digits +
              3 / 2 * ((j : ℝ) + 1) / (10 : ℝ) ^ srs.coord_num_digits =
              e + 3 / 2 * ((j : ℝ) + 1 + 1) / (10 : ℝ) ^ srs.coord_num_digits := by
            field_simp
            ring
          push_cast at hrec ⊢
          linarith

/-! ## C4: the round-trip claims -/

/-- Claim C4, refuted: a single coordinate whose delta from the reference is
`-0.6·10^(-6)` degrees compresses to 0 (the `int(x + 0.5)` truncation rounds
it toward zero), so reconstruction is off by `6·10^(-7) > 5·10^(-7)`. -/
theorem C4_counterexample :
    ¬ (|(decodeCoords ((10 : ℝ) ^ (6 : ℕ)) 0
          (STATIC_REFERENCE_SYSTEM.compress_coord 0 [-(3 / 5) / 10 ^ 6])).getD 0 0 -
        ((-(3 / 5) / 10 ^ 6 : ℝ))| ≤ 5 / 10 ^ 7) := by
  have hceil : ⌈(-1 / 10 : ℝ)⌉ = (0 : ℤ) := by
    rw [Int.ceil_eq_iff]
    norm_num
  have hcompress :
      STATIC_REFERENCE_SYSTEM.compress_coord 0 [-(3 / 5) / 10 ^ 6] = [0] := by
    have h1 : STATIC_REFERENCE_SYSTEM.compress_coord 0 [-(3 / 5) / 10 ^ 6] =
        [pyInt ((-(3 / 5) / 10 ^ 6 - 0) *
          (10 : ℝ) ^ STATIC_REFERENCE_SYSTEM.coord_num_digits + 0.5)] := by
      simp [StaticReferenceSystem.compress_coord]
    have h2 : ((-(3 / 5) / 10 ^ 6 : ℝ) - 0) *
        (10 : ℝ) ^ STATIC_REFERENCE_SYSTEM.coord_num_digits + 0.5 =
        (-1 / 10 : ℝ) := by
      norm_num [STATIC_REFERENCE_SYSTEM]
    rw [h1, h2]
    unfold pyInt
    rw [if_neg (by norm_num)]
    simp [hceil]
  rw [hcompress]
  simp only [decodeCoords, List.getD_cons_zero]
  rw [not_le, abs_of_pos (by norm_num)]
  norm_num

/-- Claim C4 as amended: compressing with `_compress_coord` and
reconstructing by cumulative sums divided by 10^6 reproduces coordinate `i`
with absolute error strictly below `3/2·(i+1)·10^(-6)` degrees (the error of
each `int(x+0.5)` step is below `1.5·10^(-6)` and the steps accumulate,
because each delta is taken against the exact, not the reconstructed,
predecessor). -/
theorem C4_roundtrip (ref : ℝ) (values : List ℝ) (i : ℕ)
    (hi : i < values.length) :
    |(decodeCoords ((10 : ℝ) ^ (6 : ℕ)) ref
        (STATIC_REFERENCE_SYSTEM.compress_coord ref values)).getD i 0 -
      values.getD i 0| < 3 / 2 * ((i : ℝ) + 1) / 10 ^ 6 := by
  have h := decode_compress_err STATIC_REFERENCE_SYSTEM values ref ref 0
    (by simp) i hi
  simp only [zero_add] at h
  exact h

/-- Witness for C4: the round-trip bound instantiated on a concrete
singleton polyline. -/
theorem C4_roundtrip_witness :
    |(decodeCoords ((10 : ℝ) ^ (6 : ℕ)) 0
        (STATIC_REFERENCE_SYSTEM.compress_coord 0 [0])).getD 0 0 -
      ([0] : List ℝ).getD 0 0| < 3 / 2 * (((0 : ℕ) : ℝ) + 1) / 10 ^ 6 :=
  C4_roundtrip 0 [0] 0 (by norm_num)

/-! ## C6: deduplication of identical realtime payloads -/

theorem store_same_step (gzipC : Bytes → Bytes) (parseTs : Bytes → ℤ)
    (st : FetcherState) (raw : Bytes) (c : RealtimeSnapshotData)
    (hc : st.current_realtime_snapshot = some c) (hraw : c.raw_data = raw) :
    Fetcher.store_realtime_snapshot gzipC parseTs st raw =
      ({ st with realtime_rows :=
          st.realtime_rows ++ [(⟨c.snapshot_at, []⟩ : ArchiveRow)] }, false) := by
  unfold Fetcher.store_realtime_snapshot
  simp [hc, hraw]

theorem store_new_step (gzipC : Bytes → Bytes) (parseTs : Bytes → ℤ)
    (st : FetcherState) (raw : Bytes)
    (hdiff : ∀ c, st.current_realtime_snapshot = some c → c.raw_data ≠ raw) :
    Fetcher.store_realtime_snapshot gzipC parseTs st raw =
      ({ current_realtime_snapshot :=
            some (process_gtfs_realtime gzipC parseTs raw)
         realtime_rows := st.realtime_rows ++
           [{ snapshot_at := parseTs raw, gzipped_data := gzipC raw }]
         realtime_published :=
           if INVALID_TIMESTAMP < parseTs raw then
             st.realtime_published ++ [gzipC raw]
           else st.realtime_published
         new_snapshots_count := st.new_snapshots_count + 1 }, true) := by
  unfold Fetcher.store_realtime_snapshot
  cases hc : st.current_realtime_snapshot with
  | none => simp [process_gtfs_realtime]
  | some c =>
      have hne : c.raw_data ≠ raw := hdiff c hc
      simp [hne, process_gtfs_realtime]

theorem storeN_same (gzipC : Bytes → Bytes) (parseTs : Bytes → ℤ)
    (raw : Bytes) (c : RealtimeSnapshotData) (hraw : c.raw_data = raw) :
    ∀ (n : ℕ) (st : FetcherState),
      st.current_realtime_snapshot = some c →
      Fetcher.storeRealtimeN gzipC parseTs st raw n =
        { st with realtime_rows := st.realtime_rows ++
            List.replicate n (⟨c.snapshot_at, []⟩ : ArchiveRow) }
  | 0, st, hc => by simp [Fetcher.storeRealtimeN]
  | n + 1, st, hc => by
      rw [Fetcher.storeRealtimeN,
        store_same_step gzipC parseTs st raw c hc hraw,
        storeN_same gzipC parseTs raw c hraw n _ (by simp [hc])]
      simp [List.replicate_succ]

/-- Claim C6, confirmed: starting from a state whose dedup reference differs
from the payload (or is unset), `N = n + 1` identical raw payloads append
exactly one archive row carrying the (non-empty) gzipped bytes followed by
`n` rows with empty `gzipped_data`, and nothing is published for the
duplicates (the one possible publish belongs to the first, new payload). -/
theorem C6_dedup (gzipC : Bytes → Bytes) (parseTs : Bytes → ℤ)
    (st : FetcherState) (raw : Bytes) (n : ℕ)
    (hgz : ∀ b, gzipC b ≠ [])
    (hdiff : ∀ c, st.current_realtime_snapshot = some c → c.raw_data ≠ raw) :
    (Fetcher.storeRealtimeN gzipC parseTs st raw (n + 1)).realtime_rows =
        st.realtime_rows ++
          [{ snapshot_at := parseTs raw, gzipped_data := gzipC raw }] ++
          List.replicate n
            { snapshot_at := parseTs raw, gzipped_data := [] } ∧
      (Fetcher.storeRealtimeN gzipC parseTs st raw (n + 1)).realtime_published =
        st.realtime_published ++
          (if INVALID_TIMESTAMP < parseTs raw then [gzipC raw] else []) ∧
      gzipC raw ≠ [] := by
  have hrun : Fetcher.storeRealtimeN gzipC parseTs st raw (n + 1) =
      { current_realtime_snapshot :=
          some (process_gtfs_realtime gzipC parseTs raw)
        realtime_rows := st.realtime_rows ++
          [{ snapshot_at := parseTs raw, gzipped_data := gzipC raw }] ++
          List.replicate n
            { snapshot_at := parseTs raw, gzipped_data := [] }
        realtime_published :=
          if INVALID_TIMESTAMP < parseTs raw then
            st.realtime_published ++ [gzipC raw]
          else st.realtime_published
        new_snapshots_count := st.new_snapshots_count + 1 } := by
    have h1 : (Fetcher.store_realtime_snapshot gzipC parseTs st raw).1 =
        { current_realtime_snapshot :=
            some (process_gtfs_realtime gzipC parseTs raw)
          realtime_rows := st.realtime_rows ++
            [{ snapshot_at := parseTs raw, gzipped_data := gzipC raw }]
          realtime_published :=
            if INVALID_TIMESTAMP < parseTs raw then
              st.realtime_published ++ [gzipC raw]
            else st.realtime_published
          new_snapshots_count := st.new_snapshots_count + 1 } := by
      rw [store_new_step gzipC parseTs st raw hdiff]
    rw [Fetcher.storeRealtimeN, h1]
    exact storeN_same gzipC parseTs raw
      (process_gtfs_realtime gzipC parseTs raw) rfl n _ rfl
  rw [hrun]
  refine ⟨rfl, ?_, hgz raw⟩
  by_cases hv : INVALID_TIMESTAMP < parseTs raw <;> simp [hv]

/-- Witness for C6: three identical payloads against a fresh fetcher state,
with gzip modelled as prepending a header byte. -/
theorem C6_dedup_witness :
    (Fetcher.storeRealtimeN (fun b => 31 :: b) (fun _ => 5)
          ⟨none, [], [], 0⟩ [1] (2 + 1)).realtime_rows =
        [] ++ [{ snapshot_at := 5, gzipped_data := [31, 1] }] ++
          List.replicate 2 { snapshot_at := 5, gzipped_data := [] } ∧
      (Fetcher.storeRealtimeN (fun b => 31 :: b) (fun _ => 5)
          ⟨none, [], [], 0⟩ [1] (2 + 1)).realtime_published =
        [] ++ (if INVALID_TIMESTAMP < (5 : ℤ) then [[31, 1]] else []) ∧
      ([31, 1] : Bytes) ≠ [] :=
  C6_dedup (fun b => 31 :: b) (fun _ => 5) ⟨none, [], [], 0⟩ [1] 2
    (fun b => by simp) (fun c hc => by simp at hc)

/-! ## C7: calendar date extraction -/

theorem pydate_min_choice (a b : PyDate) : a.min b = a ∨ a.min b = b := by
  unfold PyDate.min
  split <;> simp

theorem pydate_min_key (a b : PyDate) :
    (a.min b).key ≤ a.key ∧ (a.min b).key ≤ b.key := by
  unfold PyDate.min
  split
  · rename_i h
    exact ⟨le_refl _, h⟩
  · rename_i h
    unfold PyDate.le at h
    exact ⟨by omega, le_refl _⟩

theorem pydate_min_ne (a b : PyDate) (ha : a ≠ INVALID_DATE)
    (hb : b ≠ INVALID_DATE) : a.min b ≠ INVALID_DATE := by
  rcases pydate_min_choice a b with h | h <;> rw [h] <;> assumption

theorem calendarFold_cons (s : String) (rest : List String) (acc : PyDate) :
    calendarFold (s :: rest) acc =
      match parseStartDate s with
      | none => acc
      | some date =>
          calendarFold rest
            (if acc = INVALID_DATE then date else acc.min date) := rfl

theorem parseAll_cons (s : String) (rest : List String) :
    parseAll (s :: rest) =
      (parseStartDate s).bind (fun d =>
        (parseAll rest).bind (fun ds => some (d :: ds))) := rfl

theorem process_gtfs_static_some (gzipC : Bytes → Bytes) (rs : List String)
    (raw : Bytes) :
    process_gtfs_static gzipC (some rs) raw =
      { raw_data := raw, gzipped_data := gzipC raw,
        calendar_date := calendarFold rs INVALID_DATE } := rfl

theorem foldl_min_spec :
    ∀ (ds : List PyDate) (acc : PyDate),
      (ds.foldl PyDate.min acc = acc ∨ ds.foldl PyDate.min acc ∈ ds) ∧
        (ds.foldl PyDate.min acc).key ≤ acc.key ∧
        (∀ d ∈ ds, (ds.foldl PyDate.min acc).key ≤ d.key)
  | [], acc => by simp
  | d :: rest, acc => by
      obtain ⟨hmem, hacc, hall⟩ := foldl_min_spec rest (acc.min d)
      rw [List.foldl_cons]
      obtain ⟨hminl, hminr⟩ := pydate_min_key acc d
      refine ⟨?_, le_trans hacc hminl, ?_⟩
      · rcases hmem with h | h
        · rcases pydate_min_choice acc d with h' | h'
          · exact Or.inl (h.trans h')
          · refine Or.inr ?_
            rw [h, h']
            exact List.mem_cons_self d rest
        · exact Or.inr (List.mem_cons_of_mem d h)
      · intro x hx
        rcases List.mem_cons.mp hx with h | h
        · subst h
          exact le_trans hacc hminr
        · exact hall x h

theorem calendarFold_eq_foldl_min :
    ∀ (rs : List String) (ds : List PyDate) (acc : PyDate),
      parseAll rs = some ds → INVALID_DATE ∉ ds → acc ≠ INVALID_DATE →
      calendarFold rs acc = ds.foldl PyDate.min acc
  | [], ds, acc, hm, _, _ => by
      unfold parseAll at hm
      simp at hm
      subst hm
      rfl
  | s :: rest, ds, acc, hm, hinv, hacc => by
      rw [parseAll_cons] at hm
      cases hp : parseStartDate s with
      | none => rw [hp] at hm; simp at hm
      | some d =>
          rw [hp] at hm
          cases hrest : parseAll rest with
          | none => rw [hrest] at hm; simp at hm
          | some ds' =>
              rw [hrest] at hm
              simp at hm
              subst hm
              simp only [List.mem_cons, not_or] at hinv
              rw [calendarFold_cons]
              simp only [hp]
              rw [if_neg hacc, List.foldl_cons]
              exact calendarFold_eq_foldl_min rest ds' (acc.min d) hrest
                hinv.2 (pydate_min_ne acc d hacc (Ne.symm hinv.1))

theorem calendarFold_min (rs : List String) (ds : List PyDate)
    (hm : parseAll rs = some ds) (hinv : INVALID_DATE ∉ ds)
    (hne : ds ≠ []) :
    calendarFold rs INVALID_DATE ∈ ds ∧
      ∀ d ∈ ds, (calendarFold rs INVALID_DATE).key ≤ d.key := by
  cases rs with
  | nil =>
      unfold parseAll at hm
      simp at hm
      subst hm
      exact absurd rfl hne
  | cons s rest =>
      rw [parseAll_cons] at hm
      cases hp : parseStartDate s with
      | none => rw [hp] at hm; simp at hm
      | some d =>
          rw [hp] at hm
          cases hrest : parseAll rest with
          | none => rw [hrest] at hm; simp at hm
          | some ds' =>
              rw [hrest] at hm
              simp at hm
              subst hm
              simp only [List.mem_cons, not_or] at hinv
              have hstep : calendarFold (s :: rest) INVALID_DATE =
                  calendarFold rest d := by
                rw [calendarFold_cons]
                simp [hp]
              have heq := calendarFold_eq_foldl_min rest ds' d hrest hinv.2
                (Ne.symm hinv.1)
              rw [hstep, heq]
              obtain ⟨hmem, hacc, hall⟩ := foldl_min_spec ds' d
              constructor
              · rcases hmem with h | h
                · rw [h]
                  exact List.mem_cons_self d ds'
                · exact List.mem_cons_of_mem d h
              · intro x hx
                rcases List.mem_cons.mp hx with h | h
                · subst h
                  exact hacc
                · exact hall x h

theorem calendarFold_abort (s : String) (hs : parseStartDate s = none) :
    ∀ (rs1 rs2 : List String) (acc : PyDate),
      calendarFold (rs1 ++ s :: rs2) acc = calendarFold rs1 acc
  | [], rs2, acc => by
      rw [List.nil_append, calendarFold_cons, hs]
      rfl
  | x :: rest, rs2, acc => by
      rw [List.cons_append, calendarFold_cons, calendarFold_cons]
      cases parseStartDate x with
      | none => rfl
      | some d =>
          simp only []
          exact calendarFold_abort s hs rest rs2 _

/-- Claim C7, refuted: a `calendar.txt` whose first row parses to 2024-01-01
and whose second row is malformed makes `process_gtfs_static` return
2024-01-01 — the exception aborts the loop but the *accumulated* date, not
the 1970-01-01 sentinel, is returned. -/
theorem C7_counterexample :
    (process_gtfs_static (fun b => b) (some ["20240101", "x"])
        []).calendar_date = { year := 2024, month := 1, day := 1 } ∧
      ({ year := 2024, month := 1, day := 1 } : PyDate) ≠ INVALID_DATE := by
  constructor
  · decide
  · decide

/-- Claim C7 as amended: `process_gtfs_static` always carries the raw bytes
and their gzipped form; an unreadable zip yields the sentinel; when every
row of `calendar.txt` parses and none is exactly the sentinel date, the
result is the minimum `start_date`; and a row that fails to parse truncates
the scan, keeping the minimum accumulated so far (the sentinel is returned
only when no date was accumulated before the failure). -/
theorem C7_calendar (gzipC : Bytes → Bytes) (raw : Bytes)
    (rows : Option (List String)) :
    ((process_gtfs_static gzipC rows raw).raw_data = raw ∧
        (process_gtfs_static gzipC rows raw).gzipped_data = gzipC raw) ∧
      (rows = none →
        (process_gtfs_static gzipC rows raw).calendar_date = INVALID_DATE) ∧
      (∀ rs ds, rows = some rs → parseAll rs = some ds →
        INVALID_DATE ∉ ds → ds ≠ [] →
        (process_gtfs_static gzipC rows raw).calendar_date ∈ ds ∧
          ∀ d ∈ ds,
            ((process_gtfs_static gzipC rows raw).calendar_date).key ≤
              d.key) ∧
      (∀ rs1 s rs2, rows = some (rs1 ++ s :: rs2) →
        parseStartDate s = none →
        process_gtfs_static gzipC rows raw =
          process_gtfs_static gzipC (some rs1) raw) := by
  refine ⟨⟨rfl, rfl⟩, ?_, ?_, ?_⟩
  · rintro rfl
    rfl
  · rintro rs ds rfl hm hinv hne
    rw [process_gtfs_static_some]
    exact calendarFold_min rs ds hm hinv hne
  · rintro rs1 s rs2 rfl hs
    rw [process_gtfs_static_some, process_gtfs_static_some,
      calendarFold_abort s hs rs1 rs2 INVALID_DATE]

/-- Witness for C7: the minimum of two concrete parsed dates. -/
theorem C7_calendar_witness :
    (process_gtfs_static (fun b => b) (some ["20240102", "20240101"])
        []).calendar_date ∈
      [{ year := 2024, month := 1, day := 2 },
        { year := 2024, month := 1, day := 1 }] :=
  ((C7_calendar (fun b => b) [] (some ["20240102", "20240101"])).2.2.1
    ["20240102", "20240101"]
    [{ year := 2024, month := 1, day := 2 },
      { year := 2024, month := 1, day := 1 }]
    rfl (by decide) (by decide) (by decide)).1

/-! ## C10: minute-granular static keys -/

theorem find?_append_none {α : Type} (p : α → Bool) :
    ∀ (t l : List α), t.find? p = none → (t ++ l).find? p = l.find? p
  | [], l, _ => rfl
  | x :: rest, l, h => by
      by_cases hp : p x
      · rw [List.find?_cons_of_pos _ hp] at h
        exact absurd h (by simp)
      · rw [List.find?_cons_of_neg _ hp] at h
        rw [List.cons_append, List.find?_cons_of_neg _ hp]
        exact find?_append_none p rest l h

theorem process_static_data_eq (snaps : List StaticDataSnapshot)
    (s : StaticDataSnapshot) :
    process_static_data snaps s =
      (snaps ++ [s]).drop
        (snaps.length + 1 - MAX_RECENT_STATIC_SNAPSHOTS) := by
  unfold process_static_data
  by_cases h : MAX_RECENT_STATIC_SNAPSHOTS < (snaps ++ [s]).length
  · rw [if_pos h]
    simp
  · rw [if_neg h]
    simp only [List.length_append, List.length_singleton] at h
    rw [Nat.sub_eq_zero_of_le (by simpa using Nat.le_of_not_lt h)]
    simp

theorem process_twice_shape (snaps : List StaticDataSnapshot)
    (s1 s2 : StaticDataSnapshot) :
    ∃ t : List StaticDataSnapshot,
      process_static_data (process_static_data snaps s1) s2 =
          t ++ [s1, s2] ∧
        ∀ x ∈ t, x ∈ snaps := by
  rw [process_static_data_eq snaps s1]
  have hd1le : snaps.length + 1 - MAX_RECENT_STATIC_SNAPSHOTS ≤
      snaps.length := by
    simp only [MAX_RECENT_STATIC_SNAPSHOTS]
    omega
  rw [List.drop_append_of_le_length hd1le]
  rw [process_static_data_eq]
  have hd2le : (snaps.drop (snaps.length + 1 - MAX_RECENT_STATIC_SNAPSHOTS) ++
        [s1]).length + 1 - MAX_RECENT_STATIC_SNAPSHOTS ≤
      (snaps.drop (snaps.length + 1 - MAX_RECENT_STATIC_SNAPSHOTS)).length := by
    simp only [MAX_RECENT_STATIC_SNAPSHOTS, List.length_append,
      List.length_drop, List.length_singleton]
    omega
  refine ⟨(snaps.drop (snaps.length + 1 - MAX_RECENT_STATIC_SNAPSHOTS)).drop
    ((snaps.drop (snaps.length + 1 - MAX_RECENT_STATIC_SNAPSHOTS) ++
        [s1]).length + 1 - MAX_RECENT_STATIC_SNAPSHOTS), ?_, ?_⟩
  · rw [show (snaps.drop (snaps.length + 1 - MAX_RECENT_STATIC_SNAPSHOTS) ++
        [s1]) ++ [s2] =
      snaps.drop (snaps.length + 1 - MAX_RECENT_STATIC_SNAPSHOTS) ++
        [s1, s2] by simp]
    rw [List.drop_append_of_le_length hd2le]
  · intro x hx
    exact List.mem_of_mem_drop (List.mem_of_mem_drop hx)

/-- Claim C10, confirmed: ingesting two static snapshots that were assigned
the same minute key leaves both in the history with the older one first;
`GET /static/<key>` scans the history in insertion order, so it returns the
*older* snapshot's preformatted JSON, and the newer snapshot's JSON is never
returned for that key (whenever it differs).  The final clause states the
general rule: the endpoint serves the first (oldest) history entry whose key
matches. -/
theorem C10_static_key (snaps : List StaticDataSnapshot)
    (s1 s2 : StaticDataSnapshot) (k : String)
    (h1 : s1.key = k) (h2 : s2.key = k)
    (hsn : ∀ x ∈ snaps, x.key ≠ k) :
    handle_static_data_request
        (process_static_data (process_static_data snaps s1) s2) k =
      (s1.formatted_json, 200) ∧
      (s2.formatted_json ≠ s1.formatted_json →
        (handle_static_data_request
            (process_static_data (process_static_data snaps s1) s2) k).1 ≠
          s2.formatted_json) ∧
      (∀ (l : List StaticDataSnapshot) (x : StaticDataSnapshot),
        l.find? (fun t => t.key == k) = some x →
        handle_static_data_request l k = (x.formatted_json, 200)) := by
  have hfind : ∀ (l : List StaticDataSnapshot) (x : StaticDataSnapshot),
      l.find? (fun t => t.key == k) = some x →
      handle_static_data_request l k = (x.formatted_json, 200) := by
    intro l x hx
    unfold handle_static_data_request
    rw [hx]
  obtain ⟨t, hshape, hmem⟩ := process_twice_shape snaps s1 s2
  have hmain : handle_static_data_request
      (process_static_data (process_static_data snaps s1) s2) k =
      (s1.formatted_json, 200) := by
    refine hfind _ s1 ?_
    rw [hshape]
    rw [find?_append_none _ t _ (List.find?_eq_none.mpr ?_)]
    · rw [List.find?_cons_of_pos _ (by simp [h1])]
    · intro x hx
      simp [hsn x (hmem x hx)]
  refine ⟨hmain, ?_, hfind⟩
  intro hne
  rw [hmain]
  exact hne.symm

/-- Witness for C10: two concrete snapshots minted with the same key. -/
theorem C10_static_key_witness :
    handle_static_data_request
        (process_static_data
          (process_static_data [] ⟨"2024-01-01-10-30", ⟨[]⟩, "J1"⟩)
          ⟨"2024-01-01-10-30", ⟨[]⟩, "J2"⟩) "2024-01-01-10-30" =
      ("J1", 200) :=
  (C10_static_key [] ⟨"2024-01-01-10-30", ⟨[]⟩, "J1"⟩
    ⟨"2024-01-01-10-30", ⟨[]⟩, "J2"⟩ "2024-01-01-10-30" rfl rfl
    (fun x hx => absurd hx (List.not_mem_nil x))).1

/-! ## C5: replay ordering for new push subscribers -/

theorem alookup_cons {α : Type} (k1 : String) (v : α)
    (rest : List (String × α)) (k : String) :
    alookup ((k1, v) :: rest) k =
      if k1 = k then some v else alookup rest k := rfl

theorem alookup_isSome_iff {α : Type} :
    ∀ (m : List (String × α)) (k : String),
      (alookup m k).isSome ↔ k ∈ m.map Prod.fst
  | [], k => by simp [alookup]
  | (k1, v) :: rest, k => by
      by_cases h : k1 = k
      · subst h
        simp [alookup]
      · rw [alookup_cons, if_neg h, List.map_cons]
        rw [alookup_isSome_iff rest k]
        simp only [List.mem_cons]
        constructor
        · exact Or.inr
        · rintro (h' | h')
          · exact absurd h'.symm h
          · exact h'

theorem alookup_map_ite {α : Type} (key : String) (g : α → α) :
    ∀ (m : List (String × α)) (k' : String),
      alookup (m.map (fun kv =>
          if kv.1 = key then (kv.1, g kv.2) else kv)) k' =
        if key = k' then (alookup m k').map g else alookup m k'
  | [], k' => by by_cases h : key = k' <;> simp [alookup, h]
  | (k1, v) :: rest, k' => by
      rw [List.map_cons]
      by_cases hkey : k1 = key
      · subst hkey
        rw [if_pos rfl]
        simp only [alookup_cons, alookup_map_ite k1 g rest k']
        split_ifs <;> simp_all
      · rw [if_neg hkey]
        simp only [alookup_cons, alookup_map_ite key g rest k']
        split_ifs <;> simp_all

theorem map_ite_keys {α : Type} (key : String) (g : α → α) :
    ∀ m : List (String × α),
      (m.map (fun kv =>
          if kv.1 = key then (kv.1, g kv.2) else kv)).map Prod.fst =
        m.map Prod.fst
  | [] => rfl
  | (k1, v) :: rest => by
      by_cases h : k1 = key <;>
        simp [h, map_ite_keys key g rest]

theorem pushFrame_getLast (frame : Frame) (m : ℕ) (hm : 1 ≤ m)
    (l : List Frame) :
    (pushFrame frame m l).getLast? = some frame := by
  simp only [pushFrame]
  by_cases h : m < (l ++ [frame]).length
  · rw [if_pos h]
    have h1 : 1 ≤ l.length := by
      simp only [List.length_append, List.length_singleton] at h
      omega
    rw [List.drop_append_of_le_length h1]
    exact List.getLast?_concat _
  · rw [if_neg h]
    exact List.getLast?_concat _

theorem wsStep_publish_eq (st : WSState) (k : String) (f : Frame) (m : ℕ) :
    wsStep st (WsEvent.publish k f m) = st.update_data k f m := rfl

theorem wsStep_connect_eq (st : WSState) (d : ℕ) :
    wsStep st (WsEvent.connect d) =
      ({ st with clients := st.clients ++ [d] },
        ((st.data.map Prod.snd).flatten).map (fun f => (d, f))) := rfl

theorem update_data_keys (st : WSState) (k : String) (f : Frame) (m : ℕ) :
    (st.update_data k f m).1.data.map Prod.fst = st.data.map Prod.fst := by
  unfold WSState.update_data
  by_cases h : (alookup st.data k).isSome
  · rw [if_pos h]
    exact map_ite_keys k (pushFrame f m) st.data
  · rw [if_neg h]

theorem update_data_clients (st : WSState) (k : String) (f : Frame) (m : ℕ) :
    (st.update_data k f m).1.clients = st.clients := by
  unfold WSState.update_data
  by_cases h : (alookup st.data k).isSome
  · rw [if_pos h]
  · rw [if_neg h]

theorem update_data_invalid (st : WSState) (k : String) (f : Frame) (m : ℕ)
    (hk : ¬(alookup st.data k).isSome) :
    st.update_data k f m = (st, []) := by
  unfold WSState.update_data
  rw [if_neg hk]

theorem update_data_sends (st : WSState) (k : String) (f : Frame) (m : ℕ)
    (hm : 1 ≤ m) (hk : (alookup st.data k).isSome) :
    (st.update_data k f m).2 = st.clients.map (fun c => (c, f)) := by
  unfold WSState.update_data
  rw [if_pos hk]
  show (match alookup (st.data.map (fun kv =>
      if kv.1 = k then (kv.1, pushFrame f m kv.2) else kv)) k with
    | some hist =>
        match hist.getLast? with
        | some last => st.clients.map (fun c => (c, last))
        | none => []
    | none => []) = st.clients.map (fun c => (c, f))
  rw [alookup_map_ite k (pushFrame f m) st.data k, if_pos rfl]
  obtain ⟨hist, hh⟩ := Option.isSome_iff_exists.mp hk
  rw [hh]
  show (match (pushFrame f m hist).getLast? with
    | some last => st.clients.map (fun c => (c, last))
    | none => []) = st.clients.map (fun c => (c, f))
  rw [pushFrame_getLast f m hm hist]

theorem update_data_sends_cases (st : WSState) (k : String) (f : Frame)
    (m : ℕ) :
    (st.update_data k f m).2 = [] ∨
      ∃ last, (st.update_data k f m).2 =
        st.clients.map (fun c => (c, last)) := by
  unfold WSState.update_data
  by_cases h : (alookup st.data k).isSome
  · rw [if_pos h]
    show (match alookup (st.data.map (fun kv =>
        if kv.1 = k then (kv.1, pushFrame f m kv.2) else kv)) k with
      | some hist =>
          match hist.getLast? with
          | some last => st.clients.map (fun c => (c, last))
          | none => []
      | none => []) = [] ∨
      ∃ last, (match alookup (st.data.map (fun kv =>
          if kv.1 = k then (kv.1, pushFrame f m kv.2) else kv)) k with
        | some hist =>
            match hist.getLast? with
            | some last => st.clients.map (fun c => (c, last))
            | none => []
        | none => []) = st.clients.map (fun c => (c, last))
    rcases halk : alookup (st.data.map (fun kv =>
        if kv.1 = k then (kv.1, pushFrame f m kv.2) else kv)) k with _ | hist
    · rw [halk]
      exact Or.inl rfl
    · rw [halk]
      show (match hist.getLast? with
        | some last => st.clients.map (fun c => (c, last))
        | none => []) = [] ∨
        ∃ last, (match hist.getLast? with
          | some last => st.clients.map (fun c => (c, last))
          | none => []) = st.clients.map (fun c => (c, last))
      rcases hh : hist.getLast? with _ | last
      · exact Or.inl rfl
      · exact Or.inr ⟨last, rfl⟩
  · rw [if_neg h]
    exact Or.inl rfl

theorem deliveredTo_append (c : ℕ) (o1 o2 : List (ℕ × Frame)) :
    deliveredTo c (o1 ++ o2) = deliveredTo c o1 ++ deliveredTo c o2 := by
  unfold deliveredTo
  exact List.filterMap_append o1 o2 _

theorem deliveredTo_cons (c : ℕ) (p : ℕ × Frame) (out : List (ℕ × Frame)) :
    deliveredTo c (p :: out) =
      (if p.1 = c then [p.2] else []) ++ deliveredTo c out := by
  unfold deliveredTo
  rw [List.filterMap_cons]
  by_cases h : p.1 = c <;> simp [h]

theorem deliveredTo_self (c : ℕ) :
    ∀ frames : List Frame,
      deliveredTo c (frames.map (fun f => (c, f))) = frames
  | [] => rfl
  | f :: rest => by
      rw [List.map_cons, deliveredTo_cons, deliveredTo_self c rest]
      simp

theorem deliveredTo_other (c d : ℕ) (hne : d ≠ c) :
    ∀ frames : List Frame,
      deliveredTo c (frames.map (fun f => (d, f))) = []
  | [] => rfl
  | f :: rest => by
      rw [List.map_cons, deliveredTo_cons, deliveredTo_other c d hne rest]
      simp [hne]

theorem filterMap_broadcast_count (c : ℕ) (f : Frame) :
    ∀ l : List ℕ,
      deliveredTo c (l.map (fun d => (d, f))) =
        List.replicate (l.count c) f
  | [] => rfl
  | d :: rest => by
      rw [List.map_cons, deliveredTo_cons,
        filterMap_broadcast_count c f rest]
      by_cases h : d = c
      · subst h
        have hb : (d == d) = true := by simp
        simp [List.count_cons, hb, List.replicate_succ]
      · have hb : (c == d) = false := by simp [Ne.symm h]
        simp [h, List.count_cons, hb]

theorem deliveredTo_broadcast_one (c : ℕ) (f : Frame) (l : List ℕ)
    (h : l.count c = 1) :
    deliveredTo c (l.map (fun d => (d, f))) = [f] := by
  rw [filterMap_broadcast_count c f l, h]
  rfl

theorem deliveredTo_broadcast_none (c : ℕ) (f : Frame) (l : List ℕ)
    (h : c ∉ l) :
    deliveredTo c (l.map (fun d => (d, f))) = [] := by
  rw [filterMap_broadcast_count c f l, List.count_eq_zero.mpr h]
  rfl

theorem wsStep_keys (st : WSState) (e : WsEvent) :
    (wsStep st e).1.data.map Prod.fst = st.data.map Prod.fst := by
  cases e with
  | publish k f m => exact update_data_keys st k f m
  | connect d => rfl

theorem wsStep_clients_mem (st : WSState) (e : WsEvent) (c : ℕ)
    (h : c ∈ st.clients) : c ∈ (wsStep st e).1.clients := by
  cases e with
  | publish k f m =>
      rw [wsStep_publish_eq, update_data_clients]
      exact h
  | connect d =>
      rw [wsStep_connect_eq]
      exact List.mem_append_left _ h

theorem wsStep_count (st : WSState) (e : WsEvent) (c : ℕ)
    (hne : e ≠ WsEvent.connect c) :
    (wsStep st e).1.clients.count c = st.clients.count c := by
  cases e with
  | publish k f m => rw [wsStep_publish_eq, update_data_clients]
  | connect d =>
      have hd : d ≠ c := fun h => hne (by rw [h])
      rw [wsStep_connect_eq]
      have hb : (c == d) = false := by simp [Ne.symm hd]
      simp [List.count_append, List.count_singleton, hb, hd]

theorem wsStep_no_deliver (st : WSState) (e : WsEvent) (c : ℕ)
    (hcst : c ∉ st.clients) (hne : e ≠ WsEvent.connect c) :
    deliveredTo c (wsStep st e).2 = [] := by
  cases e with
  | publish k f m =>
      rw [wsStep_publish_eq]
      rcases update_data_sends_cases st k f m with h | ⟨last, h⟩
      · rw [h]
        rfl
      · rw [h]
        exact deliveredTo_broadcast_none c last st.clients hcst
  | connect d =>
      have hd : d ≠ c := fun h => hne (by rw [h])
      exact deliveredTo_other c d hd _

theorem wsRun_nil (st : WSState) : wsRun st [] = (st, []) := rfl

theorem wsRun_cons (st : WSState) (e : WsEvent) (es : List WsEvent) :
    wsRun st (e :: es) =
      ((wsRun (wsStep st e).1 es).1,
        (wsStep st e).2 ++ (wsRun (wsStep st e).1 es).2) := rfl

theorem wsRun_append : ∀ (xs ys : List WsEvent) (st : WSState),
    wsRun st (xs ++ ys) =
      ((wsRun (wsRun st xs).1 ys).1,
        (wsRun st xs).2 ++ (wsRun (wsRun st xs).1 ys).2)
  | [], ys, st => by simp [wsRun_nil]
  | x :: xs, ys, st => by
      rw [List.cons_append, wsRun_cons, wsRun_append xs ys (wsStep st x).1,
        wsRun_cons]
      simp [List.append_assoc]

theorem wsRun_keys : ∀ (es : List WsEvent) (st : WSState),
    (wsRun st es).1.data.map Prod.fst = st.data.map Prod.fst
  | [], st => rfl
  | e :: es, st => by
      rw [wsRun_cons]
      show (wsRun (wsStep st e).1 es).1.data.map Prod.fst = _
      rw [wsRun_keys es (wsStep st e).1, wsStep_keys]

theorem wsRun_no_deliver (c : ℕ) :
    ∀ (es : List WsEvent) (st : WSState),
      c ∉ (wsRun st es).1.clients →
      c ∉ st.clients ∧ deliveredTo c (wsRun st es).2 = []
  | [], st, h => ⟨h, rfl⟩
  | e :: es, st, h => by
      rw [wsRun_cons] at h
      obtain ⟨h1, h2⟩ := wsRun_no_deliver c es (wsStep st e).1 h
      have hcst : c ∉ st.clients := fun hc => h1 (wsStep_clients_mem st e c hc)
      have hne : e ≠ WsEvent.connect c := by
        intro he
        apply h1
        rw [he, wsStep_connect_eq]
        exact List.mem_append_right _ (List.mem_singleton.mpr rfl)
      refine ⟨hcst, ?_⟩
      rw [wsRun_cons]
      show deliveredTo c
        ((wsStep st e).2 ++ (wsRun (wsStep st e).1 es).2) = []
      rw [deliveredTo_append, wsStep_no_deliver st e c hcst hne, h2]
      rfl

theorem wsRun_deliver_member (c : ℕ) (K : List String) :
    ∀ (es : List WsEvent) (st : WSState),
      st.data.map Prod.fst = K →
      st.clients.count c = 1 →
      (∀ e ∈ es, e ≠ WsEvent.connect c) →
      (∀ k f m, WsEvent.publish k f m ∈ es → 1 ≤ m) →
      deliveredTo c (wsRun st es).2 =
        es.filterMap (fun e =>
          match e with
          | WsEvent.publish k f _ => if k ∈ K then some f else none
          | WsEvent.connect _ => none)
  | [], st, _, _, _, _ => rfl
  | e :: es, st, hK, hcount, hconn, hpub => by
      rw [wsRun_cons]
      show deliveredTo c
        ((wsStep st e).2 ++ (wsRun (wsStep st e).1 es).2) = _
      rw [deliveredTo_append]
      have hne : e ≠ WsEvent.connect c := hconn e (List.mem_cons_self e es)
      have hkeys' : (wsStep st e).1.data.map Prod.fst = K := by
        rw [wsStep_keys]
        exact hK
      have hcount' : (wsStep st e).1.clients.count c = 1 := by
        rw [wsStep_count st e c hne]
        exact hcount
      have hrec := wsRun_deliver_member c K es (wsStep st e).1 hkeys'
        hcount' (fun x hx => hconn x (List.mem_cons_of_mem e hx))
        (fun k f m hm => hpub k f m (List.mem_cons_of_mem e hm))
      rw [hrec, List.filterMap_cons]
      cases e with
      | publish k f m =>
          by_cases hk : k ∈ K
          · have hsome : (alookup st.data k).isSome :=
              (alookup_isSome_iff st.data k).mpr (by rw [hK]; exact hk)
            rw [wsStep_publish_eq,
              update_data_sends st k f m
                (hpub k f m (List.mem_cons_self _ _)) hsome,
              deliveredTo_broadcast_one c f st.clients hcount]
            simp [hk]
          · have hnone : ¬(alookup st.data k).isSome := fun hs =>
              hk (by rw [← hK]; exact (alookup_isSome_iff st.data k).mp hs)
            rw [wsStep_publish_eq, update_data_invalid st k f m hnone]
            simp [hk, deliveredTo]
      | connect d =>
          have hd : d ≠ c := fun h => hne (by rw [h])
          rw [show (wsStep st (WsEvent.connect d)).2 =
            ((st.data.map Prod.snd).flatten).map (fun f => (d, f)) from rfl,
            deliveredTo_other c d hd _]
          simp

theorem initWSState_keys (kinds : List String) :
    (initWSState kinds).data.map Prod.fst = kinds := by
  simp [initWSState, List.map_map, Function.comp_def]

/-- Claim C5, confirmed: a subscriber `c` connecting after a prefix of
server events (and absent before the connect) first receives every stored
frame — the topic histories flattened in the configured topic order, each
history in insertion order — and any frame published to a configured topic
after the connect arrives strictly afterwards; the topic list of the
server's state is always exactly the configured
`["static-snapshot", "realtime-snapshot"]`, in that order. -/
theorem C5_replay (pre post : List WsEvent) (c : ℕ)
    (hc : c ∉ (wsRun (initWSState FETCHER_KINDS) pre).1.clients)
    (hpost1 : ∀ e ∈ post, e ≠ WsEvent.connect c)
    (hpost2 : ∀ k f m, WsEvent.publish k f m ∈ post → 1 ≤ m) :
    deliveredTo c (wsRun (initWSState FETCHER_KINDS)
        (pre ++ WsEvent.connect c :: post)).2 =
      (((wsRun (initWSState FETCHER_KINDS) pre).1.data.map
          Prod.snd).flatten) ++
        post.filterMap (fun e =>
          match e with
          | WsEvent.publish k f _ =>
              if k ∈ FETCHER_KINDS then some f else none
          | WsEvent.connect _ => none) ∧
      (wsRun (initWSState FETCHER_KINDS) pre).1.data.map Prod.fst =
        FETCHER_KINDS := by
  have hkeys : (wsRun (initWSState FETCHER_KINDS) pre).1.data.map Prod.fst =
      FETCHER_KINDS := by
    rw [wsRun_keys pre (initWSState FETCHER_KINDS),
      initWSState_keys FETCHER_KINDS]
  refine ⟨?_, hkeys⟩
  obtain ⟨hcpre, hdpre⟩ :=
    wsRun_no_deliver c pre (initWSState FETCHER_KINDS) hc
  rw [wsRun_append pre (WsEvent.connect c :: post)
    (initWSState FETCHER_KINDS)]
  show deliveredTo c ((wsRun (initWSState FETCHER_KINDS) pre).2 ++
      (wsRun (wsRun (initWSState FETCHER_KINDS) pre).1
        (WsEvent.connect c :: post)).2) = _
  rw [deliveredTo_append, hdpre, wsRun_cons]
  show [] ++ deliveredTo c
      ((wsStep (wsRun (initWSState FETCHER_KINDS) pre).1
          (WsEvent.connect c)).2 ++
        (wsRun (wsStep (wsRun (initWSState FETCHER_KINDS) pre).1
          (WsEvent.connect c)).1 post).2) = _
  rw [deliveredTo_append]
  rw [show (wsStep (wsRun (initWSState FETCHER_KINDS) pre).1
      (WsEvent.connect c)).2 =
    (((wsRun (initWSState FETCHER_KINDS) pre).1.data.map
        Prod.snd).flatten).map (fun f => (c, f)) from rfl]
  rw [deliveredTo_self]
  have hkeys2 : (wsStep (wsRun (initWSState FETCHER_KINDS) pre).1
      (WsEvent.connect c)).1.data.map Prod.fst = FETCHER_KINDS := by
    rw [wsStep_keys]
    exact hkeys
  have hcount2 : (wsStep (wsRun (initWSState FETCHER_KINDS) pre).1
      (WsEvent.connect c)).1.clients.count c = 1 := by
    rw [show (wsStep (wsRun (initWSState FETCHER_KINDS) pre).1
        (WsEvent.connect c)).1.clients =
      (wsRun (initWSState FETCHER_KINDS) pre).1.clients ++ [c] from rfl]
    rw [List.count_append, List.count_eq_zero.mpr hc]
    simp
  rw [wsRun_deliver_member c FETCHER_KINDS post _ hkeys2 hcount2
    hpost1 hpost2]
  simp

/-- Witness for C5: the cold-start scenario — one static frame and two
realtime frames published, then a connect, then one more realtime frame. -/
theorem C5_replay_witness :
    deliveredTo 0 (wsRun (initWSState FETCHER_KINDS)
        ([WsEvent.publish "static-snapshot" "S1" 3,
          WsEvent.publish "realtime-snapshot" "R1" 10,
          WsEvent.publish "realtime-snapshot" "R2" 10] ++
          WsEvent.connect 0 ::
            [WsEvent.publish "realtime-snapshot" "R3" 10])).2 =
      ["S1", "R1", "R2", "R3"] := by
  have h := (C5_replay
    [WsEvent.publish "static-snapshot" "S1" 3,
      WsEvent.publish "realtime-snapshot" "R1" 10,
      WsEvent.publish "realtime-snapshot" "R2" 10]
    [WsEvent.publish "realtime-snapshot" "R3" 10] 0
    (by decide)
    (by intro e he; simp at he; subst he; simp)
    (by
      intro k f m hm
      simp at hm
      obtain ⟨-, -, rfl⟩ := hm
      norm_num)).1
  rw [h]
  rfl

/-! ## C3: heading threshold scan -/

theorem find_rev_range_some (p : ℕ → Bool) :
    ∀ (n i : ℕ), i < n → p i = true →
      (∀ j, i < j → j < n → p j = false) →
      (List.range n).reverse.find? p = some i
  | 0, i, hi, _, _ => absurd hi (Nat.not_lt_zero i)
  | n + 1, i, hi, hpi, hall => by
      rw [List.range_succ, List.reverse_append]
      simp only [List.reverse_singleton, List.singleton_append]
      by_cases hin : i = n
      · subst hin
        rw [List.find?_cons_of_pos _ hpi]
      · have hi' : i < n := by omega
        have hpn : p n = false := hall n (by omega) (by omega)
        rw [List.find?_cons_of_neg _ (by simp [hpn])]
        exact find_rev_range_some p n i hi' hpi
          (fun j h1 h2 => hall j h1 (by omega))

theorem compute_direction_eq (lat lon : List ℝ) (h : ¬lat.length < 2) :
    compute_direction lat lon =
      match (List.range (lat.length - 1)).reverse.find? (fun i =>
          decide (DIRECTION_THRESHOLD_METERS <
            haversine_distance_meters (lat.getD (lat.length - 1) 0)
              (lon.getD (lon.length - 1) 0)
              (lat.getD i 0) (lon.getD i 0))) with
      | some i => some (arrow_angle (lat.getD i 0) (lon.getD i 0)
          (lat.getD (lat.length - 1) 0) (lon.getD (lon.length - 1) 0))
      | none => none := by
  unfold compute_direction
  rw [if_neg h]

/-- Claim C3, confirmed: the heading is null exactly when every past point of
the trajectory lies within 20 m (haversine) of the newest position, and when
some past point lies strictly farther, the heading is the planar bearing
from the most recent such point (the greatest qualifying index) toward the
newest position. -/
theorem C3_heading (lat lon : List ℝ) :
    (compute_direction lat lon = none ↔
      ∀ i, i < lat.length - 1 →
        haversine_distance_meters (lat.getD (lat.length - 1) 0)
            (lon.getD (lon.length - 1) 0) (lat.getD i 0) (lon.getD i 0) ≤
          DIRECTION_THRESHOLD_METERS) ∧
      (∀ i, i < lat.length - 1 →
        DIRECTION_THRESHOLD_METERS <
          haversine_distance_meters (lat.getD (lat.length - 1) 0)
            (lon.getD (lon.length - 1) 0) (lat.getD i 0) (lon.getD i 0) →
        (∀ j, i < j → j < lat.length - 1 →
          haversine_distance_meters (lat.getD (lat.length - 1) 0)
              (lon.getD (lon.length - 1) 0) (lat.getD j 0)
              (lon.getD j 0) ≤ DIRECTION_THRESHOLD_METERS) →
        compute_direction lat lon =
          some (arrow_angle (lat.getD i 0) (lon.getD i 0)
            (lat.getD (lat.length - 1) 0) (lon.getD (lon.length - 1) 0))) := by
  constructor
  · by_cases hlen : lat.length < 2
    · have hz : lat.length - 1 = 0 := by omega
      constructor
      · intro _ i hi
        rw [hz] at hi
        exact absurd hi (Nat.not_lt_zero i)
      · intro _
        unfold compute_direction
        rw [if_pos hlen]
    · rcases hfind : (List.range (lat.length - 1)).reverse.find? (fun i =>
          decide (DIRECTION_THRESHOLD_METERS <
            haversine_distance_meters (lat.getD (lat.length - 1) 0)
              (lon.getD (lon.length - 1) 0)
              (lat.getD i 0) (lon.getD i 0))) with _ | i
      · rw [compute_direction_eq lat lon hlen, hfind]
        refine iff_of_true rfl ?_
        intro i hi
        have hmem : i ∈ (List.range (lat.length - 1)).reverse := by
          simp [List.mem_reverse, List.mem_range, hi]
        have hni := List.find?_eq_none.mp hfind i hmem
        simp only [decide_eq_true_eq] at hni
        exact le_of_not_lt hni
      · rw [compute_direction_eq lat lon hlen, hfind]
        refine iff_of_false (by simp) ?_
        intro hall
        have hpi := List.find?_some hfind
        simp only [decide_eq_true_eq] at hpi
        have hmem := List.mem_of_find?_eq_some hfind
        simp only [List.mem_reverse, List.mem_range] at hmem
        exact absurd (hall i hmem) (not_le.mpr hpi)
  · intro i hi hdist hall
    have hlen : ¬lat.length < 2 := by omega
    rw [compute_direction_eq lat lon hlen,
      find_rev_range_some _ (lat.length - 1) i hi
        (decide_eq_true hdist)
        (fun j h1 h2 => decide_eq_false (not_lt.mpr (hall j h1 h2)))]

theorem haversine_pole_gt :
    DIRECTION_THRESHOLD_METERS < haversine_distance_meters 0 0 90 0 := by
  have e0 : radians 0 = 0 := by simp [radians]
  have e90 : radians 90 = Real.pi / 2 := by
    unfold radians
    ring
  have hh : haversine_distance_meters 0 0 90 0 =
      EARTH_RADIUS_METERS * (2 * atan2
        (Real.sqrt (Real.sin (0.5 * (radians 90 - radians 0)) ^ 2 +
          Real.cos (radians 0) * Real.cos (radians 90) *
            Real.sin (0.5 * radians (0 - 0)) ^ 2))
        (Real.sqrt (1 - (Real.sin (0.5 * (radians 90 - radians 0)) ^ 2 +
          Real.cos (radians 0) * Real.cos (radians 90) *
            Real.sin (0.5 * radians (0 - 0)) ^ 2)))) := rfl
  have ha : Real.sin (0.5 * (radians 90 - radians 0)) ^ 2 +
      Real.cos (radians 0) * Real.cos (radians 90) *
        Real.sin (0.5 * radians (0 - 0)) ^ 2 = 1 / 2 := by
    rw [e0, e90]
    rw [show (0.5 : ℝ) * (Real.pi / 2 - 0) = Real.pi / 4 by ring]
    rw [show ((0 : ℝ) - 0) = (0 : ℝ) by ring, e0]
    rw [show (0.5 : ℝ) * (0 : ℝ) = 0 by ring]
    rw [Real.sin_pi_div_four, Real.cos_zero, Real.cos_pi_div_two,
      Real.sin_zero]
    rw [div_pow, Real.sq_sqrt (by norm_num : (0 : ℝ) ≤ 2)]
    norm_num
  rw [hh, ha]
  have hpos : (0 : ℝ) < Real.sqrt (1 / 2) :=
    Real.sqrt_pos.mpr (by norm_num)
  have hatan : atan2 (Real.sqrt (1 / 2)) (Real.sqrt (1 - 1 / 2)) =
      Real.pi / 4 := by
    rw [show (1 : ℝ) - 1 / 2 = 1 / 2 by norm_num]
    unfold atan2
    rw [if_pos hpos, div_self (ne_of_gt hpos), Real.arctan_one]
  rw [hatan]
  unfold EARTH_RADIUS_METERS DIRECTION_THRESHOLD_METERS
  nlinarith [Real.pi_gt_three]

/-- Witness for C3: a two-point trajectory from the north pole to the
origin; the single past point is far beyond 20 m, so the heading is the
bearing from it toward the newest position. -/
theorem C3_heading_witness :
    compute_direction [90, 0] [0, 0] = some (arrow_angle 90 0 0 0) := by
  have h := (C3_heading [90, 0] [0, 0]).2 0 (by simp)
    (by simpa using haversine_pole_gt)
    (fun j h1 h2 => by
      exfalso
      simp at h2
      omega)
  simpa using h

/-! ## C8: v0 / v1 encoding consistency -/

theorem getD_map {α β : Type} (f : α → β) :
    ∀ (l : List α) (k : ℕ) (d : α),
      (l.map f).getD k (f d) = f (l.getD k d)
  | [], _, _ => rfl
  | _ :: _, 0, _ => rfl
  | _ :: rest, k + 1, d => getD_map f rest k d

/-- Claim C8, refuted in its timestamp clause: for a state at feed timestamp
7 holding one fresh vehicle with timestamp 5, v0 reports the raw timestamp 5
while the corresponding v1 entry is the delta `ref_timestamp − t = 2`. -/
theorem C8_counterexample :
    (RealtimeState.to_json_v0
        ⟨[("t", ⟨1, none, 5, [], [], none, 0⟩)], 7, none⟩).map
        (fun e => e.timestamp) = [5] ∧
      (RealtimeState.to_json_v1
        ⟨[("t", ⟨1, none, 5, [], [], none, 0⟩)], 7,
          none⟩).vehicles.timestamps = [2] ∧
      (5 : ℤ) ≠ 2 := by
  refine ⟨?_, ?_, by norm_num⟩
  · simp [RealtimeState.to_json_v0, Vehicle.to_json_v0]
  · simp [RealtimeState.to_json_v1, Vehicle.to_compressed_json,
      ReferenceSystem.compress_timestamps]

set_option maxHeartbeats 1600000 in
/-- Claim C8 as amended: over the fresh vehicles (counter zero, in shared
order) v0's `routeId` and `directionDegrees` equal the corresponding v1
entries, v1's timestamp entry is the delta `state.timestamp − v0.timestamp`
(not the raw v0 timestamp), and decoding v1's coordinate deltas reproduces
the last ≤6 positions emitted by v0 to within `1.5·10^(-6)·(j+1)` degrees at
window index `j` (not within `10^(-6)`: the `int(x+0.5)` quantization error
reaches `1.5·10^(-6)` per step and accumulates along the window). -/
theorem C8_equivalence (s : RealtimeState) (k j : ℕ) :
    (s.to_json_v1).vehicles.routeIds =
        (s.to_json_v0).map (fun e => e.routeId) ∧
      (s.to_json_v1).vehicles.directionDegrees =
        (s.to_json_v0).map (fun e => e.directionDegrees) ∧
      (s.to_json_v1).vehicles.timestamps =
        (s.to_json_v0).map (fun e => s.timestamp - e.timestamp) ∧
      (k < ((s.vehicles.map Prod.snd).filter
          (fun v => v.no_update_counter == 0)).length →
        j < (takeLast (((s.vehicles.map Prod.snd).filter
            (fun v => v.no_update_counter == 0)).getD k
              ⟨0, none, 0, [], [], none, 0⟩).lat
            TRAJECTORY_OUTPUT_LENGTH).length →
        |(decodeCoords ((10 : ℝ) ^ (6 : ℕ)) STATIC_REFERENCE_SYSTEM.ref_lat
            ((s.to_json_v1).vehicles.compressedLats.getD k [])).getD j 0 -
          (takeLast (((s.vehicles.map Prod.snd).filter
              (fun v => v.no_update_counter == 0)).getD k
                ⟨0, none, 0, [], [], none, 0⟩).lat
              TRAJECTORY_OUTPUT_LENGTH).getD j 0| <
          3 / 2 * ((j : ℝ) + 1) / 10 ^ 6) ∧
      (k < ((s.vehicles.map Prod.snd).filter
          (fun v => v.no_update_counter == 0)).length →
        j < (takeLast (((s.vehicles.map Prod.snd).filter
            (fun v => v.no_update_counter == 0)).getD k
              ⟨0, none, 0, [], [], none, 0⟩).lon
            TRAJECTORY_OUTPUT_LENGTH).length →
        |(decodeCoords ((10 : ℝ) ^ (6 : ℕ)) STATIC_REFERENCE_SYSTEM.ref_lon
            ((s.to_json_v1).vehicles.compressedLons.getD k [])).getD j 0 -
          (takeLast (((s.vehicles.map Prod.snd).filter
              (fun v => v.no_update_counter == 0)).getD k
                ⟨0, none, 0, [], [], none, 0⟩).lon
              TRAJECTORY_OUTPUT_LENGTH).getD j 0| <
          3 / 2 * ((j : ℝ) + 1) / 10 ^ 6) := by
  refine ⟨?_, ?_, ?_, ?_, ?_⟩
  · simp [RealtimeState.to_json_v1, RealtimeState.to_json_v0,
      Vehicle.to_compressed_json, Vehicle.to_json_v0, List.map_map,
      Function.comp_def]
  · simp [RealtimeState.to_json_v1, RealtimeState.to_json_v0,
      Vehicle.to_compressed_json, Vehicle.to_json_v0, List.map_map,
      Function.comp_def]
  · simp [RealtimeState.to_json_v1, RealtimeState.to_json_v0,
      Vehicle.to_compressed_json, Vehicle.to_json_v0, List.map_map,
      Function.comp_def, ReferenceSystem.compress_timestamps]
  · intro hk hj
    have hcl : (s.to_json_v1).vehicles.compressedLats.getD k [] =
        STATIC_REFERENCE_SYSTEM.compress_coord
          STATIC_REFERENCE_SYSTEM.ref_lat
          (takeLast (((s.vehicles.map Prod.snd).filter
            (fun v => v.no_update_counter == 0)).getD k
              ⟨0, none, 0, [], [], none, 0⟩).lat
            TRAJECTORY_OUTPUT_LENGTH) := by
      show (((s.vehicles.map Prod.snd).filter
          (fun v => v.no_update_counter == 0)).map (fun v =>
            STATIC_REFERENCE_SYSTEM.compress_lats
              (takeLast v.lat TRAJECTORY_OUTPUT_LENGTH))).getD k [] = _
      rw [show ([] : List ℤ) = (fun v : Vehicle =>
          STATIC_REFERENCE_SYSTEM.compress_lats
            (takeLast v.lat TRAJECTORY_OUTPUT_LENGTH))
          ⟨0, none, 0, [], [], none, 0⟩ from rfl]
      rw [getD_map]
      rfl
    rw [hcl]
    have h := decode_compress_err STATIC_REFERENCE_SYSTEM _
      STATIC_REFERENCE_SYSTEM.ref_lat STATIC_REFERENCE_SYSTEM.ref_lat 0
      (by simp) j hj
    simp only [zero_add] at h
    exact h
  · intro hk hj
    have hcl : (s.to_json_v1).vehicles.compressedLons.getD k [] =
        STATIC_REFERENCE_SYSTEM.compress_coord
          STATIC_REFERENCE_SYSTEM.ref_lon
          (takeLast (((s.vehicles.map Prod.snd).filter
            (fun v => v.no_update_counter == 0)).getD k
              ⟨0, none, 0, [], [], none, 0⟩).lon
            TRAJECTORY_OUTPUT_LENGTH) := by
      show (((s.vehicles.map Prod.snd).filter
          (fun v => v.no_update_counter == 0)).map (fun v =>
            STATIC_REFERENCE_SYSTEM.compress_lons
              (takeLast v.lon TRAJECTORY_OUTPUT_LENGTH))).getD k [] = _
      rw [show ([] : List ℤ) = (fun v : Vehicle =>
          STATIC_REFERENCE_SYSTEM.compress_lons
            (takeLast v.lon TRAJECTORY_OUTPUT_LENGTH))
          ⟨0, none, 0, [], [], none, 0⟩ from rfl]
      rw [getD_map]
      rfl
    rw [hcl]
    have h := decode_compress_err STATIC_REFERENCE_SYSTEM _
      STATIC_REFERENCE_SYSTEM.ref_lon STATIC_REFERENCE_SYSTEM.ref_lon 0
      (by simp) j hj
    simp only [zero_add] at h
    exact h

/-- Witness for C8: the coordinate clause instantiated on a concrete state
with one fresh vehicle at one position. -/
theorem C8_equivalence_witness :
    |(decodeCoords ((10 : ℝ) ^ (6 : ℕ)) STATIC_REFERENCE_SYSTEM.ref_lat
        ((RealtimeState.to_json_v1
          ⟨[("t", ⟨1, none, 5, [45.815], [15.9819], none, 0⟩)], 7,
            none⟩).vehicles.compressedLats.getD 0 [])).getD 0 0 -
      (takeLast ((((⟨[("t", ⟨1, none, 5, [45.815], [15.9819], none, 0⟩)], 7,
          none⟩ : RealtimeState).vehicles.map Prod.snd).filter
          (fun v => v.no_update_counter == 0)).getD 0
            ⟨0, none, 0, [], [], none, 0⟩).lat
          TRAJECTORY_OUTPUT_LENGTH).getD 0 0| <
      3 / 2 * (((0 : ℕ) : ℝ) + 1) / 10 ^ 6 :=
  (C8_equivalence
    ⟨[("t", ⟨1, none, 5, [45.815], [15.9819], none, 0⟩)], 7, none⟩
    0 0).2.2.2.1 (by simp) (by simp [takeLast, TRAJECTORY_OUTPUT_LENGTH])

end Zet

